import Mathlib

/-!
Shallow embedding of the runtime-controls engine of the buildfunctions SDK
(`src/buildfunctions/runtime_controls.py` and `src/buildfunctions/agent_logic_safety.py`),
together with proofs settling the specification claims about it.

Modelling conventions:
* Async functions are modelled as pure functions with explicit state passing;
  state stores become association lists, events become an accumulated list.
* Python numbers are modelled as `Int`; the few float-valued knobs
  (backoff factor, jitter ratio, failure-rate threshold) are modelled as exact
  fractions (`Flt`, an unnormalized `Int` pair with positive denominator) so
  that every definition evaluates inside the kernel.
* SHA-256 is modelled by a fixed deterministic digest function of the
  serialized string (`digest_hex`); every claim about hashing in this file
  depends only on the digest being a function of the canonical serialization.
* Python strings compare by Unicode code point; `str_le` implements exactly
  that order on `List Char`.
-/

namespace RTC

/-! ## String ordering (Python `sorted` compares code points) -/

/-- Lexicographic order on character lists by code point, as Python compares
strings. -/
def chars_le : List Char → List Char → Bool
  | [], _ => true
  | _ :: _, [] => false
  | a :: as, b :: bs => if a = b then chars_le as bs else decide (a < b)

/-- Python string `<=` (code-point lexicographic). -/
def str_le (a b : String) : Bool := chars_le a.data b.data

/-! ## Exact fraction model of Python floats

The runtime controls use floats only for the backoff factor, the jitter
ratio and the circuit failure-rate threshold, and only ever compare or
multiply them.  We model a float as an exact fraction `num/den` with `den`
positive by convention; operations never normalize, so everything reduces
in the kernel. -/

structure Flt where
  num : Int
  den : Int
deriving DecidableEq

def flt_of_int (n : Int) : Flt := { num := n, den := 1 }

def flt_mul (a b : Flt) : Flt := { num := a.num * b.num, den := a.den * b.den }

def flt_add (a b : Flt) : Flt :=
  { num := a.num * b.den + b.num * a.den, den := a.den * b.den }

def flt_sub (a b : Flt) : Flt :=
  { num := a.num * b.den - b.num * a.den, den := a.den * b.den }

/-- `a <= b` for fractions with positive denominators. -/
def flt_le (a b : Flt) : Bool := a.num * b.den ≤ b.num * a.den

def flt_min (a b : Flt) : Flt := if flt_le a b then a else b

def flt_max (a b : Flt) : Flt := if flt_le a b then b else a

def flt_pow (a : Flt) : Nat → Flt
  | 0 => flt_of_int 1
  | n + 1 => flt_mul a (flt_pow a n)

/-- Round to nearest integer.  (Python's `round` rounds halves to even; the
half-integer case never matters for any claim, so we round halves up.) -/
def flt_round (a : Flt) : Int := Int.fdiv (2 * a.num + a.den) (2 * a.den)

/-- `failed / total >= threshold`, expressed without division (valid for
`total > 0` and a threshold with positive denominator), modelling the float
comparison `failure_rate >= failureRateThreshold` in `record_circuit_call`. -/
def ratio_ge (failed total : Int) (threshold : Flt) : Bool :=
  failed * threshold.den ≥ threshold.num * total

/-! ## JSON-like values (Python data handed to the controls as `args` etc.)

`JVal`/`JArr`/`JObj` form a mutual family instead of nesting `List` so that
all recursions are structural and kernel-evaluable.  `JObj` is an entry
list; Python dictionaries always have distinct keys, which the well-formedness
predicate `WFJ` captures where a proof needs it. -/

mutual
inductive JVal where
  | jnull
  | jbool (b : Bool)
  | jnum (n : Int)
  | jstr (s : String)
  | arr (items : JArr)
  | obj (entries : JObj)

inductive JArr where
  | nil
  | cons (head : JVal) (tail : JArr)

inductive JObj where
  | nil
  | cons (key : String) (value : JVal) (tail : JObj)
end

def JArr.toList : JArr → List JVal
  | .nil => []
  | .cons v tl => v :: tl.toList

def JObj.toList : JObj → List (String × JVal)
  | .nil => []
  | .cons k v tl => (k, v) :: tl.toList

/-- Comma-join, as Python's `",".join`. -/
def joinComma : List String → String
  | [] => ""
  | [s] => s
  | s :: rest => s ++ "," ++ joinComma rest

/-- JSON string literal (`json.dumps` of a string).  Escaping of special
characters is not modelled; every string any claim touches is plain. -/
def json_quote (s : String) : String := "\"" ++ s ++ "\""

/-- Key order on serialized entries. -/
def pair_le (a b : String × String) : Prop := str_le a.1 b.1 = true

instance pair_le_dec : DecidableRel pair_le :=
  fun a b => instDecidableEqBool (str_le a.1 b.1) true

/-- Sort serialized object entries by key, code-point order, modelling
`sorted(value.keys())` in `_stable_stringify`. -/
def sortPairs (l : List (String × String)) : List (String × String) :=
  List.insertionSort pair_le l

mutual
/-- `_stable_stringify`: canonical serialization — primitives as literal
JSON, arrays in order, objects with keys sorted lexicographically.  The
source sorts keys and then serializes each value; serializing entries first
and then sorting the (key, serialization) pairs by key yields the same
string for the distinct keys Python dictionaries guarantee. -/
def stable_stringify : JVal → String
  | .jnull => "null"
  | .jbool b => if b then "true" else "false"
  | .jnum n => toString n
  | .jstr s => json_quote s
  | .arr items => "[" ++ joinComma (stringify_list items) ++ "]"
  | .obj es =>
      "\x7b" ++ joinComma ((sortPairs (stringify_entries es)).map
        (fun p => json_quote p.1 ++ ":" ++ p.2)) ++ "\x7d"

def stringify_list : JArr → List String
  | .nil => []
  | .cons v tl => stable_stringify v :: stringify_list tl

def stringify_entries : JObj → List (String × String)
  | .nil => []
  | .cons k v tl => (k, stable_stringify v) :: stringify_entries tl
end

/-- Stand-in for the SHA-256 hex digest: a fixed deterministic function of
the input string.  Every claim in this development depends only on the
digest being a function of the serialized string. -/
def digest_hex (s : String) : String :=
  let h := s.data.foldl (fun acc c => (acc * 131 + c.toNat) % 18446744073709551616) 5381
  "h" ++ toString h

/-- `_digest_stable`: digest of the canonical serialization.  (The source's
fallback to `str(value)` for unserializable values is unreachable for
`JVal`-representable data.) -/
def digest_stable (v : JVal) : String := digest_hex (stable_stringify v)

/-- `_build_fingerprint`: `toolName + ":" + hash(args ?? null)`. -/
def build_fingerprint (tool_name : String) (args : Option JVal) : String :=
  tool_name ++ ":" ++ digest_stable (args.getD .jnull)

/-- `_build_outcome_hash` over the payload `{ok, statusCode, code, message, data}`. -/
def build_outcome_hash (ok : Bool) (statusCode : Option Int) (code : Option String)
    (message : Option String) (data : Option JVal) : String :=
  digest_stable (.obj
    (.cons "ok" (.jbool ok)
      (.cons "statusCode" ((statusCode.map JVal.jnum).getD .jnull)
        (.cons "code" ((code.map JVal.jstr).getD .jnull)
          (.cons "message" ((message.map JVal.jstr).getD .jnull)
            (.cons "data" (data.getD .jnull) .nil))))))

/-! ## Failure normalization and retry classification -/

/-- A raw thrown value: message plus the optional attributes the source
probes.  `code` models the string `code` attribute whose presence makes
`_has_failure_fields` true; `status_code`/`statusCode`/`status`/
`responseStatus` model the numeric attributes `_extract_status_code`
probes. -/
structure RawError where
  message : String := ""
  code : Option String := none
  status_code : Option Int := none
  statusCode : Option Int := none
  status : Option Int := none
  responseStatus : Option Int := none
deriving DecidableEq

/-- A failure as produced by `_make_failure` / `_normalize_failure`:
`{message, code, statusCode}`.  `statusCode` models the value read back by
`getattr(error, "status_code", getattr(error, "statusCode", None))`. -/
structure NormError where
  message : String
  code : String
  statusCode : Option Int := none
deriving DecidableEq

/-- `_make_failure` (empty message falls back to "Tool call failed"). -/
def make_failure (message : String) (code : String := "UNKNOWN_ERROR")
    (statusCode : Option Int := none) : NormError :=
  { message := if message = "" then "Tool call failed" else message
    code := code
    statusCode := statusCode }

/-- `_has_failure_fields`: the error already carries a string `code`. -/
def has_failure_fields (e : RawError) : Bool := e.code.isSome

/-- `_extract_status_code`: an error with failure fields exposes only its
`status_code` attribute; otherwise `statusCode`, `status`, `response.status`
are probed in order. -/
def extract_status_code (e : RawError) : Option Int :=
  if has_failure_fields e then e.status_code
  else (e.statusCode.orElse fun _ => (e.status.orElse fun _ => e.responseStatus))

/-- The transient-signals regex of `_normalize_failure`: a case-insensitive
search for any of these literals. -/
def transient_patterns : List String :=
  ["timeout", "timed out", "econnreset", "eai_again", "enotfound", "network",
    "socket", "rate limit", "temporar"]

def chars_has_sub (needle : List Char) (hay : List Char) : Bool :=
  match hay with
  | [] => needle.isEmpty
  | _ :: tl => needle.isPrefixOf hay || chars_has_sub needle tl

/-- Case-insensitive substring test. -/
def contains_ci (hay needle : String) : Bool :=
  chars_has_sub (needle.data.map Char.toLower) (hay.data.map Char.toLower)

def transient_signal (message : String) : Bool :=
  transient_patterns.any (fun p => contains_ci message p)

/-- `_normalize_failure`.  An error that already has failure fields is
passed through (downstream status reads then see its own status attributes);
otherwise cancellation, timeout, the transient-signals regex, and the
`UNKNOWN_ERROR` fallback apply, in that order.  (The `BuildfunctionsError`
branch is not modelled; raw errors cover it via `code`.) -/
def normalize_failure (e : RawError) (didTimeout cancelledByCaller : Bool)
    (statusCode : Option Int) : NormError :=
  match e.code with
  | some c =>
      { message := e.message, code := c
        statusCode := e.status_code.orElse fun _ => e.statusCode }
  | none =>
      if cancelledByCaller then
        make_failure "Tool call cancelled by caller" "NETWORK_ERROR" statusCode
      else if didTimeout then
        make_failure "Tool call timed out" "NETWORK_ERROR" statusCode
      else if transient_signal e.message then
        make_failure e.message "NETWORK_ERROR" statusCode
      else
        make_failure e.message "UNKNOWN_ERROR" statusCode

/-- `_is_retryable_status`: 408, 429 or >= 500. -/
def is_retryable_status : Option Int → Bool
  | none => false
  | some c => c == 408 || c == 429 || c ≥ 500

/-- `_is_fatal_buildfunctions_code`. -/
def is_fatal_buildfunctions_code (code : String) : Bool :=
  code == "UNAUTHORIZED" || code == "INVALID_REQUEST" || code == "VALIDATION_ERROR" ||
    code == "NOT_FOUND" || code == "SIZE_LIMIT_EXCEEDED"

/-- `_should_retry_failure`.  Note the order: the retryable-status test runs
before the fatal-code test. -/
def should_retry_failure (error : NormError) (status_code : Option Int)
    (cancelled_by_caller : Bool) : Bool :=
  if cancelled_by_caller then false
  else if is_retryable_status (status_code.orElse fun _ => error.statusCode) then true
  else if is_fatal_buildfunctions_code error.code then false
  else error.code == "NETWORK_ERROR"

/-! ## Resolved configuration and per-call overrides

Numeric user input is modelled as `Option Int` (`None`/non-numeric input
collapses to `none`); float-valued knobs as `Option Flt`.  `_clamp_number`
followed by `_to_int`/`max` becomes `max bound (value.getD default)`. -/

structure RetryCfg where
  maxAttempts : Nat
  initialDelayMs : Int
  maxDelayMs : Int
  backoffFactor : Flt
  jitterRatio : Flt
deriving DecidableEq

structure RetryOv where
  maxAttempts : Option Int := none
  initialDelayMs : Option Int := none
  maxDelayMs : Option Int := none
  backoffFactor : Option Flt := none
  jitterRatio : Option Flt := none

structure LoopCfg where
  enabled : Bool
  warningThreshold : Int
  quarantineThreshold : Int
  stopThreshold : Int
  quarantineMs : Int
  stopCooldownMs : Int
  maxFingerprints : Int
deriving DecidableEq

structure LoopOv where
  enabled : Option Bool := none
  warningThreshold : Option Int := none
  quarantineThreshold : Option Int := none
  stopThreshold : Option Int := none
  quarantineMs : Option Int := none
  stopCooldownMs : Option Int := none
  maxFingerprints : Option Int := none

structure CircuitCfg where
  enabled : Bool
  windowMs : Int
  minRequests : Int
  failureRateThreshold : Flt
  cooldownMs : Int
deriving DecidableEq

structure CircuitOv where
  enabled : Option Bool := none
  windowMs : Option Int := none
  minRequests : Option Int := none
  failureRateThreshold : Option Flt := none
  cooldownMs : Option Int := none

/-- `_resolve_retry_config`. -/
def resolve_retry_config (d : RetryCfg) (ov : RetryOv) : RetryCfg :=
  { maxAttempts := (max 1 (ov.maxAttempts.getD d.maxAttempts)).toNat
    initialDelayMs := max 0 (ov.initialDelayMs.getD d.initialDelayMs)
    maxDelayMs := max 0 (ov.maxDelayMs.getD d.maxDelayMs)
    backoffFactor := flt_max (flt_of_int 1) (ov.backoffFactor.getD d.backoffFactor)
    jitterRatio := flt_min (flt_of_int 1)
      (flt_max (flt_of_int 0) (ov.jitterRatio.getD d.jitterRatio)) }

/-- `_resolve_loop_breaker_config`: each threshold is clamped to >= 1
independently; no ordering between them is enforced. -/
def resolve_loop_breaker_config (d : LoopCfg) (ov : LoopOv) : LoopCfg :=
  { enabled := ov.enabled.getD d.enabled
    warningThreshold := max 1 (ov.warningThreshold.getD d.warningThreshold)
    quarantineThreshold := max 1 (ov.quarantineThreshold.getD d.quarantineThreshold)
    stopThreshold := max 1 (ov.stopThreshold.getD d.stopThreshold)
    quarantineMs := max 0 (ov.quarantineMs.getD d.quarantineMs)
    stopCooldownMs := max 0 (ov.stopCooldownMs.getD d.stopCooldownMs)
    maxFingerprints := max 20 (ov.maxFingerprints.getD d.maxFingerprints) }

/-- `_resolve_circuit_breaker_config`. -/
def resolve_circuit_breaker_config (d : CircuitCfg) (ov : CircuitOv) : CircuitCfg :=
  { enabled := ov.enabled.getD d.enabled
    windowMs := max 1000 (ov.windowMs.getD d.windowMs)
    minRequests := max 1 (ov.minRequests.getD d.minRequests)
    failureRateThreshold := flt_min (flt_of_int 1)
      (flt_max (flt_of_int 0) (ov.failureRateThreshold.getD d.failureRateThreshold))
    cooldownMs := max 1000 (ov.cooldownMs.getD d.cooldownMs) }

def DEFAULT_RETRY : RetryCfg :=
  { maxAttempts := 4, initialDelayMs := 250, maxDelayMs := 10000
    backoffFactor := flt_of_int 2, jitterRatio := { num := 1, den := 5 } }

def DEFAULT_LOOP_BREAKER : LoopCfg :=
  { enabled := true, warningThreshold := 5, quarantineThreshold := 8,
    stopThreshold := 12, quarantineMs := 15000, stopCooldownMs := 120000,
    maxFingerprints := 200 }

def DEFAULT_CIRCUIT_BREAKER : CircuitCfg :=
  { enabled := true, windowMs := 30000, minRequests := 20,
    failureRateThreshold := { num := 3, den := 5 }, cooldownMs := 60000 }

/-- A per-tool / per-destination override (`_resolve_runtime_overrides`
normalizes each entry to this shape). -/
structure RuntimeOverride where
  timeoutMs : Option Int := none
  retry : Option RetryOv := none
  loopBreaker : Option LoopOv := none
  circuitBreaker : Option CircuitOv := none

structure OverrideEntry where
  pattern : String
  override : RuntimeOverride

/-- The per-call slice of configuration refined by overrides. -/
structure EffCfg where
  timeoutMs : Int
  retry : RetryCfg
  loopBreaker : LoopCfg
  circuitBreaker : CircuitCfg

/-- `_match_pattern`: `*`, `prefix*`, or exact. -/
def match_pattern (value : String) (pattern : String) : Bool :=
  if pattern = "*" then true
  else if pattern.endsWith "*" then value.startsWith (pattern.dropRight 1)
  else value = pattern

/-- `_host_matches`: `*`, `*.suffix`, or exact (case-insensitive hosts). -/
def lower_str (s : String) : String := ⟨s.data.map Char.toLower⟩

def host_matches (pattern : String) (host : String) : Bool :=
  if pattern = "*" then true
  else if pattern.startsWith "*." then
    (lower_str host).endsWith (lower_str (pattern.drop 1))
  else lower_str host = lower_str pattern

/-- `_normalize_destination`: URL parse to netloc when a scheme is present,
otherwise the raw value; empty input normalizes to `none`. -/
def normalize_destination : Option String → Option String
  | none => none
  | some d =>
      if d = "" then none
      else
        match d.splitOn "://" with
        | _ :: rest :: _ =>
            some ((rest.splitOn "/").headD "")
        | _ => some d

def get_tool_pattern_specificity (pattern : String) : Int :=
  if pattern = "*" then 0
  else if pattern.endsWith "*" then 1
  else 2

def get_destination_pattern_specificity (pattern : String) : Int :=
  if pattern = "*" then 0
  else if pattern.startsWith "*." then 1
  else 2

/-- `_find_tool_override`: the matching entry with the highest (strictly
greater) tool-pattern specificity; the first such entry wins on ties. -/
def find_tool_override (entries : List OverrideEntry) (tool_name : String) :
    Option RuntimeOverride :=
  let best := entries.foldl
    (fun best entry =>
      if match_pattern tool_name entry.pattern then
        let score := get_tool_pattern_specificity entry.pattern
        match best with
        | none => some (score, entry.override)
        | some (bestScore, _) =>
            if score > bestScore then some (score, entry.override) else best
      else best)
    none
  best.map Prod.snd

/-- `_find_destination_override`. -/
def find_destination_override (entries : List OverrideEntry)
    (destination : Option String) : Option RuntimeOverride :=
  match destination with
  | none => none
  | some dest =>
      let best := entries.foldl
        (fun best entry =>
          if host_matches entry.pattern dest then
            let score := get_destination_pattern_specificity entry.pattern
            match best with
            | none => some (score, entry.override)
            | some (bestScore, _) =>
                if score > bestScore then some (score, entry.override) else best
          else best)
        none
      best.map Prod.snd

/-- `_apply_runtime_override`: a numeric `timeoutMs` in the override replaces
the current value (clamped at 0); `retry`, `loopBreaker`, `circuitBreaker`
sub-overrides are resolved against the current values. -/
def apply_runtime_override (base : EffCfg) (override : Option RuntimeOverride) : EffCfg :=
  match override with
  | none => base
  | some ov =>
      { timeoutMs :=
          match ov.timeoutMs with
          | some t => max 0 t
          | none => base.timeoutMs
        retry :=
          match ov.retry with
          | some r => resolve_retry_config base.retry r
          | none => base.retry
        loopBreaker :=
          match ov.loopBreaker with
          | some l => resolve_loop_breaker_config base.loopBreaker l
          | none => base.loopBreaker
        circuitBreaker :=
          match ov.circuitBreaker with
          | some c => resolve_circuit_breaker_config base.circuitBreaker c
          | none => base.circuitBreaker }

/-! ## Call context, events, verifier decisions -/

/-- The per-call context handed to `run` (the caller's abort signal is
modelled separately, in `RunEnv`). -/
structure CallCtx where
  toolName : String := ""
  runKey : Option String := none
  destination : Option String := none
  action : Option String := none
  args : Option JVal := none
  idempotencyKey : Option String := none
  resourceKey : Option String := none
  timeoutMs : Option Int := none

/-- `_resolve_effective_call_config`: per-call timeout default, then the
destination override, then the tool override (so tool overrides win). -/
def resolve_effective_call_config (timeoutMs : Int) (retry : RetryCfg)
    (loopBreaker : LoopCfg) (circuitBreaker : CircuitCfg)
    (overrideTools overrideDests : List OverrideEntry) (ctx : CallCtx) : EffCfg :=
  let defaults : EffCfg :=
    { timeoutMs := ctx.timeoutMs.getD timeoutMs
      retry := retry, loopBreaker := loopBreaker, circuitBreaker := circuitBreaker }
  let destinationOverride :=
    find_destination_override overrideDests (normalize_destination ctx.destination)
  let toolOverride := find_tool_override overrideTools ctx.toolName
  apply_runtime_override (apply_runtime_override defaults destinationOverride) toolOverride

/-- Runtime-control event types (payloads are not needed by any claim). -/
inductive Ev where
  | retry
  | loop_warning
  | loop_quarantine
  | loop_stop
  | circuit_open
  | budget_stop
  | policy_denied
  | policy_approval_required
  | policy_approved
  | policy_dry_run
  | verifier_rejected
  | idempotency_replay
  | concurrency_wait
  | concurrency_rejected
deriving DecidableEq

/-- The raw return value of a user verifier: a boolean, a decision
dictionary, or anything else. -/
inductive VerdictRaw where
  | vbool (b : Bool)
  | vdec (allow : Bool) (reason : Option String)
  | vother

structure Verdict where
  allow : Bool
  reason : Option String := none
deriving DecidableEq

/-- `_normalize_verifier_decision`: bool passes through, a dictionary reads
`allow` (default False) and a string `reason`, anything else allows. -/
def normalize_verifier_decision : VerdictRaw → Verdict
  | .vbool b => { allow := b }
  | .vdec allow reason => { allow := allow, reason := reason }
  | .vother => { allow := true }

/-- `decision.get("reason") or fallback`: `None` and the empty string both
fall back. -/
def reason_or (reason : Option String) (fallback : String) : String :=
  match reason with
  | some r => if r = "" then fallback else r
  | none => fallback

/-! ## Policy evaluator -/

inductive PolicyAction where
  | allow
  | deny
  | require_approval
deriving DecidableEq

inductive PolicyMode where
  | enforce
  | dryRun
deriving DecidableEq

structure PolicyRule where
  id : Option String := none
  action : PolicyAction := .allow
  tools : Option (List String) := none
  destinations : Option (List String) := none
  actionPrefixes : Option (List String) := none
  reason : Option String := none

/-- `_get_policy_action_strictness`: deny(2) > require_approval(1) > allow(0). -/
def get_policy_action_strictness : PolicyAction → Int
  | .deny => 2
  | .require_approval => 1
  | .allow => 0

structure RuleRank where
  toolSpecificity : Int
  destinationSpecificity : Int
  actionPrefixSpecificity : Int
  strictness : Int
  index : Nat
deriving DecidableEq

/-- `_get_tool_rule_match_rank`: every supplied constraint must match;
absent (or empty) constraint lists score `-1` and match anything. -/
def get_tool_rule_match_rank (rule : PolicyRule) (ctx : CallCtx) (index : Nat) :
    Option RuleRank :=
  let toolSpec : Option Int :=
    match rule.tools with
    | some ts =>
        if ts.isEmpty then some (-1)
        else
          let scores := (ts.filter (fun p => match_pattern ctx.toolName p)).map
            get_tool_pattern_specificity
          if scores.isEmpty then none else some (scores.foldl max (-1))
    | none => some (-1)
  match toolSpec with
  | none => none
  | some toolSpecificity =>
    let destSpec : Option Int :=
      match rule.destinations with
      | some ds =>
          if ds.isEmpty then some (-1)
          else
            match normalize_destination ctx.destination with
            | none => none
            | some dest =>
                let scores := (ds.filter (fun p => host_matches p dest)).map
                  get_destination_pattern_specificity
                if scores.isEmpty then none else some (scores.foldl max (-1))
      | none => some (-1)
    match destSpec with
    | none => none
    | some destinationSpecificity =>
      let actSpec : Option Int :=
        match rule.actionPrefixes with
        | some ps =>
            if ps.isEmpty then some (-1)
            else
              match ctx.action with
              | none => none
              | some action =>
                  let lengths := (ps.filter (fun p => action.startsWith p)).map
                    (fun p => (p.length : Int))
                  if lengths.isEmpty then none else some (lengths.foldl max (-1))
        | none => some (-1)
      match actSpec with
      | none => none
      | some actionPrefixSpecificity =>
          some { toolSpecificity := toolSpecificity
                 destinationSpecificity := destinationSpecificity
                 actionPrefixSpecificity := actionPrefixSpecificity
                 strictness := get_policy_action_strictness rule.action
                 index := index }

/-- `_compare_rule_ranks`: positive when `a` outranks `b`.  On a complete
tie of the four specificity/strictness fields the result is
`b.index - a.index`, so the lower-indexed rank outranks. -/
def compare_rule_ranks (a b : RuleRank) : Int :=
  if a.toolSpecificity ≠ b.toolSpecificity then a.toolSpecificity - b.toolSpecificity
  else if a.destinationSpecificity ≠ b.destinationSpecificity then
    a.destinationSpecificity - b.destinationSpecificity
  else if a.actionPrefixSpecificity ≠ b.actionPrefixSpecificity then
    a.actionPrefixSpecificity - b.actionPrefixSpecificity
  else if a.strictness ≠ b.strictness then a.strictness - b.strictness
  else (b.index : Int) - (a.index : Int)

/-- `_find_matching_tool_rule`, instrumented to also return the winning
rank (the source keeps the rank in a local variable). -/
def find_matching_ranked (rules : List PolicyRule) (ctx : CallCtx) :
    Option (RuleRank × PolicyRule) :=
  rules.enum.foldl
    (fun best (entry : Nat × PolicyRule) =>
      match get_tool_rule_match_rank entry.2 ctx entry.1 with
      | none => best
      | some rank =>
          match best with
          | none => some (rank, entry.2)
          | some (bestRank, _) =>
              if compare_rule_ranks rank bestRank > 0 then some (rank, entry.2) else best)
    none

def find_matching_tool_rule (rules : List PolicyRule) (ctx : CallCtx) :
    Option PolicyRule :=
  (find_matching_ranked rules ctx).map Prod.snd

structure PolicyCfg where
  enabled : Bool := true
  mode : PolicyMode := .enforce
  rules : List PolicyRule := []
  approvalHandler : Option (PolicyRule → CallCtx → Bool) := none

/-- `enforce_policy`: returns the events it emits and an optional failure. -/
def enforce_policy (policy : PolicyCfg) (ctx : CallCtx) : List Ev × Option NormError :=
  if ¬ policy.enabled ∨ policy.rules.isEmpty then ([], none)
  else
    match find_matching_tool_rule policy.rules ctx with
    | none => ([], none)
    | some rule =>
        let reason := reason_or rule.reason "Policy blocked tool call"
        match rule.action with
        | .allow => ([], none)
        | .deny =>
            if policy.mode = .dryRun then ([.policy_dry_run], none)
            else
              ([.policy_denied],
                some (make_failure ("Policy denied tool call: " ++ reason)
                  "UNAUTHORIZED" (some 403)))
        | .require_approval =>
            if policy.mode = .dryRun then ([.policy_dry_run], none)
            else
              match policy.approvalHandler with
              | none =>
                  ([.policy_approval_required],
                    some (make_failure
                      ("Policy requires approval but no approvalHandler is configured: "
                        ++ reason) "UNAUTHORIZED" (some 403)))
              | some handler =>
                  if handler rule ctx then
                    ([.policy_approval_required, .policy_approved], none)
                  else
                    ([.policy_approval_required, .policy_denied],
                      some (make_failure "Tool call approval denied by policy handler"
                        "UNAUTHORIZED" (some 403)))

/-! ## Verifier chain -/

structure VerifierCfg where
  beforeCall : Option (CallCtx → VerdictRaw) := none
  afterSuccess : Option (CallCtx → JVal → VerdictRaw) := none
  afterError : Option (CallCtx → NormError → RawError → VerdictRaw) := none

/-- `enforce_before_verifier`. -/
def enforce_before_verifier (verifiers : VerifierCfg) (ctx : CallCtx) :
    List Ev × Option NormError :=
  match verifiers.beforeCall with
  | none => ([], none)
  | some verifier =>
      let decision := normalize_verifier_decision (verifier ctx)
      if decision.allow then ([], none)
      else
        let reason := reason_or decision.reason "before-call verifier rejected tool call"
        ([.verifier_rejected],
          some (make_failure ("Verifier rejected tool call: " ++ reason) "INVALID_REQUEST"))

/-- `enforce_success_verifier`. -/
def enforce_success_verifier (verifiers : VerifierCfg) (ctx : CallCtx) (result : JVal) :
    List Ev × Option NormError :=
  match verifiers.afterSuccess with
  | none => ([], none)
  | some verifier =>
      let decision := normalize_verifier_decision (verifier ctx result)
      if decision.allow then ([], none)
      else
        let reason := reason_or decision.reason "success verifier rejected tool result"
        ([.verifier_rejected],
          some (make_failure ("Verifier rejected tool result: " ++ reason) "INVALID_REQUEST"))

/-- `apply_error_verifier`: a non-allow decision replaces the normalized
error with an `INVALID_REQUEST` failure. -/
def apply_error_verifier (verifiers : VerifierCfg) (ctx : CallCtx)
    (normalized : NormError) (raw : RawError) : List Ev × NormError :=
  match verifiers.afterError with
  | none => ([], normalized)
  | some verifier =>
      let decision := normalize_verifier_decision (verifier ctx normalized raw)
      if decision.allow then ([], normalized)
      else
        let reason := reason_or decision.reason "error verifier rejected tool error"
        ([.verifier_rejected],
          make_failure ("Verifier rejected tool error: " ++ reason) "INVALID_REQUEST")

/-! ## State stores

Async state stores become association lists in insertion order (the shape of
the in-memory default adapter). -/

/-- "the optional millisecond timestamp lies strictly in the future". -/
def opt_gt_now (o : Option Int) (now : Int) : Bool :=
  match o with
  | some u => decide (u > now)
  | none => false

def sget {V : Type} : List (String × V) → String → Option V
  | [], _ => none
  | (k', v') :: tl, k => if k' = k then some v' else sget tl k

def sset {V : Type} : List (String × V) → String → V → List (String × V)
  | [], k, v => [(k, v)]
  | (k', v') :: tl, k, v => if k' = k then (k, v) :: tl else (k', v') :: sset tl k v

def sdel {V : Type} : List (String × V) → String → List (String × V)
  | [], _ => []
  | (k', v') :: tl, k => if k' = k then sdel tl k else (k', v') :: sdel tl k

structure LoopState where
  streak : Int := 0
  lastSeenAt : Int := 0
  lastOutcomeHash : Option String := none
  quarantineUntil : Option Int := none
  stopUntil : Option Int := none
deriving DecidableEq

structure CSample where
  timestamp : Int
  failed : Bool
deriving DecidableEq

structure CircuitState where
  samples : List CSample := []
  openUntil : Option Int := none
deriving DecidableEq

structure BudgetState where
  count : Int := 0
deriving DecidableEq

structure LockState where
  owner : String
  expiresAt : Int
deriving DecidableEq

structure StoredErr where
  message : String
  code : String
  statusCode : Option Int := none
deriving DecidableEq

structure IdemRecord where
  storedAt : Int := 0
  expiresAt : Option Int := none
  ok : Bool
  result : JVal := .jnull
  error : Option StoredErr := none

structure Stores where
  loop : List (String × LoopState) := []
  circuit : List (String × CircuitState) := []
  budget : List (String × BudgetState) := []
  lock : List (String × LockState) := []
  idem : List (String × IdemRecord) := []

/-! ## State keys -/

/-- Python `str.strip()` (ASCII whitespace; claims only use plain keys). -/
def is_ws (c : Char) : Bool := c = ' ' || c = '\t' || c = '\n' || c = '\r'

def trim_str (s : String) : String :=
  ⟨((s.data.dropWhile is_ws).reverse.dropWhile is_ws).reverse⟩

/-- `normalize_run_key`: empty / blank / absent becomes "default". -/
def normalize_run_key : Option String → String
  | none => "default"
  | some s =>
      if s = "" then "default"
      else
        let t := trim_str s
        if t = "" then "default" else t

def get_run_budget_key (tenantKey runKey : String) : String :=
  tenantKey ++ ":budget:" ++ runKey

def get_loop_state_key (tenantKey fingerprint : String) : String :=
  tenantKey ++ ":loop:" ++ fingerprint

def get_lock_state_key (tenantKey resourceKey : String) : String :=
  tenantKey ++ ":lock:" ++ digest_stable (.jstr resourceKey)

/-- `get_circuit_key`: `tenant:toolName:destinationHost`, destination
normalized to host and defaulting to "default". -/
def get_circuit_key (tenantKey toolName : String) (destination : Option String) : String :=
  tenantKey ++ ":" ++ toolName ++ ":" ++ ((normalize_destination destination).getD "default")

/-! ## Budget counter -/

/-- `enforce_run_budget`: read the counter, stop at the limit, else
increment. -/
def enforce_run_budget (maxToolCalls : Option Int) (tenantKey : String) (ctx : CallCtx)
    (st : List (String × BudgetState)) :
    List (String × BudgetState) × List Ev × Option NormError :=
  match maxToolCalls with
  | none => (st, [], none)
  | some limit =>
      let runKey := normalize_run_key ctx.runKey
      let budgetKey := get_run_budget_key tenantKey runKey
      let state := (sget st budgetKey).getD {}
      if state.count ≥ limit then
        (st, [.budget_stop],
          some (make_failure
            ("Tool-call budget exceeded for run \"" ++ runKey ++ "\" ("
              ++ toString limit ++ " max calls)") "INVALID_REQUEST"))
      else
        (sset st budgetKey { count := state.count + 1 }, [], none)

/-! ## Loop breaker -/

/-- `enforce_loop_before_call`: block during stop / quarantine windows,
otherwise refresh `lastSeenAt`. -/
def enforce_loop_before_call (loopCfg : LoopCfg) (tenantKey fingerprint : String)
    (now : Int) (st : List (String × LoopState)) :
    List (String × LoopState) × Option NormError :=
  if ¬ loopCfg.enabled then (st, none)
  else
    let key := get_loop_state_key tenantKey fingerprint
    match sget st key with
    | none => (st, none)
    | some state =>
        if opt_gt_now state.stopUntil now then
          (st, some (make_failure "Loop breaker blocked repeated no-progress tool pattern"
            "INVALID_REQUEST"))
        else if opt_gt_now state.quarantineUntil now then
          (st, some (make_failure "Loop breaker quarantined repeated tool pattern"
            "INVALID_REQUEST"))
        else
          (sset st key { state with lastSeenAt := now }, none)

/-- `prune_loop_states`: when the tracked keys exceed `maxFingerprints`,
drop the single oldest by `lastSeenAt` (first minimum in store order). -/
def prune_loop_states (loopCfg : LoopCfg) (tenantKey : String)
    (st : List (String × LoopState)) : List (String × LoopState) :=
  let pfx := tenantKey ++ ":loop:"
  let keys := (st.map Prod.fst).filter (fun k => k.startsWith pfx)
  if (keys.length : Int) ≤ loopCfg.maxFingerprints then st
  else
    let oldest := keys.foldl
      (fun acc k =>
        match sget st k with
        | none => acc
        | some state =>
            match acc with
            | none => some (k, state.lastSeenAt)
            | some (_, ts) => if state.lastSeenAt < ts then some (k, state.lastSeenAt) else acc)
      none
    match oldest with
    | some (k, _) => sdel st k
    | none => st

/-- `record_loop_outcome`: streak bookkeeping, threshold events, then
pruning. -/
def record_loop_outcome (loopCfg : LoopCfg) (tenantKey fingerprint _toolName : String)
    (outcomeHash : String) (now : Int) (st : List (String × LoopState)) :
    List (String × LoopState) × List Ev :=
  if ¬ loopCfg.enabled then (st, [])
  else
    let key := get_loop_state_key tenantKey fingerprint
    let state0 := (sget st key).getD { streak := 0, lastSeenAt := now }
    let state1 :=
      if state0.lastOutcomeHash = some outcomeHash then
        { state0 with streak := state0.streak + 1 }
      else
        { state0 with
            streak := 1
            lastOutcomeHash := some outcomeHash
            quarantineUntil := none
            stopUntil := none }
    let state2 := { state1 with lastSeenAt := now }
    let streak := state2.streak
    let out3 :=
      if streak ≥ loopCfg.stopThreshold then
        let previous := (state2.stopUntil.getD 0)
        ({ state2 with stopUntil := some (now + loopCfg.stopCooldownMs) },
          if previous ≤ now then [Ev.loop_stop] else [])
      else if streak ≥ loopCfg.quarantineThreshold then
        let previous := (state2.quarantineUntil.getD 0)
        ({ state2 with quarantineUntil := some (now + loopCfg.quarantineMs) },
          if previous ≤ now then [Ev.loop_quarantine] else [])
      else if streak ≥ loopCfg.warningThreshold then
        (state2, [Ev.loop_warning])
      else (state2, [])
    (prune_loop_states loopCfg tenantKey (sset st key out3.1), out3.2)

/-! ## Circuit breaker -/

/-- `enforce_circuit_before_call`: reject while `openUntil` lies in the
future. -/
def enforce_circuit_before_call (circuitCfg : CircuitCfg) (tenantKey toolName : String)
    (destination : Option String) (now : Int) (st : List (String × CircuitState)) :
    Option NormError :=
  if ¬ circuitCfg.enabled then none
  else
    let key := get_circuit_key tenantKey toolName destination
    match sget st key with
    | none => none
    | some state =>
        if opt_gt_now state.openUntil now then
          some (make_failure "Dependency temporarily unavailable (circuit breaker open)"
            "NETWORK_ERROR")
        else none

/-- `record_circuit_call`: append the sample, trim to the window, and open
the circuit when the threshold condition holds; `circuit_open` is emitted
only on a transition from non-open (`previous <= now`). -/
def record_circuit_call (circuitCfg : CircuitCfg) (tenantKey toolName : String)
    (destination : Option String) (failed : Bool) (now : Int)
    (st : List (String × CircuitState)) : List (String × CircuitState) × List Ev :=
  if ¬ circuitCfg.enabled then (st, [])
  else
    let key := get_circuit_key tenantKey toolName destination
    let state0 := (sget st key).getD (CircuitState.mk [] none)
    let minTimestamp := now - circuitCfg.windowMs
    let samples := (state0.samples ++ [CSample.mk now failed]).filter
      (fun s => s.timestamp ≥ minTimestamp)
    let state1 := { state0 with samples := samples }
    let total := (samples.length : Int)
    let failureCount := ((samples.filter (fun s => s.failed)).length : Int)
    if total ≥ circuitCfg.minRequests ∧
        ratio_ge failureCount total circuitCfg.failureRateThreshold then
      let previous := state1.openUntil.getD 0
      let state2 := { state1 with openUntil := some (now + circuitCfg.cooldownMs) }
      (sset st key state2, if previous ≤ now then [Ev.circuit_open] else [])
    else
      (sset st key state1, [])

/-! ## Idempotency cache -/

structure IdemCfg where
  enabled : Bool := true
  ttlMs : Option Int := none
  includeErrors : Bool := false
  namespaceByRunKey : Bool := true
deriving DecidableEq

/-- `get_idempotency_state_key`: requires the policy enabled and a
non-blank idempotency key. -/
def get_idempotency_state_key (idem : IdemCfg) (tenantKey : String) (ctx : CallCtx) :
    Option String :=
  if ¬ idem.enabled then none
  else
    match ctx.idempotencyKey with
    | none => none
    | some k =>
        let trimmed := trim_str k
        if trimmed = "" then none
        else
          let scope := if idem.namespaceByRunKey then normalize_run_key ctx.runKey
            else "global"
          some (tenantKey ++ ":idempotency:" ++ scope ++ ":" ++ ctx.toolName ++ ":"
            ++ digest_stable (.jstr trimmed))

/-- `read_idempotency_record`: expired records are deleted and ignored. -/
def read_idempotency_record (idem : IdemCfg) (tenantKey : String) (ctx : CallCtx)
    (now : Int) (st : List (String × IdemRecord)) :
    List (String × IdemRecord) × Option IdemRecord :=
  match get_idempotency_state_key idem tenantKey ctx with
  | none => (st, none)
  | some stateKey =>
      match sget st stateKey with
      | none => (st, none)
      | some record =>
          match record.expiresAt with
          | some e => if e ≤ now then (sdel st stateKey, none) else (st, some record)
          | none => (st, some record)

inductive ReplayOut where
  | miss
  | hit (value : JVal)
  | raiseErr (e : NormError)

/-- `try_replay_idempotency`: replay the stored result, or re-throw the
stored error. -/
def try_replay_idempotency (idem : IdemCfg) (tenantKey : String) (ctx : CallCtx)
    (now : Int) (st : List (String × IdemRecord)) :
    List (String × IdemRecord) × List Ev × ReplayOut :=
  match get_idempotency_state_key idem tenantKey ctx with
  | none => (st, [], .miss)
  | some _ =>
      match read_idempotency_record idem tenantKey ctx now st with
      | (st1, none) => (st1, [], .miss)
      | (st1, some record) =>
          if record.ok then (st1, [.idempotency_replay], .hit record.result)
          else
            match record.error with
            | some err =>
                (st1, [.idempotency_replay],
                  .raiseErr (make_failure err.message err.code err.statusCode))
            | none =>
                (st1, [.idempotency_replay],
                  .raiseErr (make_failure "Replayed idempotent tool error" "UNKNOWN_ERROR"))

/-- `store_idempotency_success`. -/
def store_idempotency_success (idem : IdemCfg) (tenantKey : String) (ctx : CallCtx)
    (now : Int) (result : JVal) (st : List (String × IdemRecord)) :
    List (String × IdemRecord) :=
  match get_idempotency_state_key idem tenantKey ctx with
  | none => st
  | some stateKey =>
      sset st stateKey
        { storedAt := now
          expiresAt := idem.ttlMs.map (fun ttl => now + ttl)
          ok := true
          result := result }

/-- `store_idempotency_error` (only when `includeErrors`). -/
def store_idempotency_error (idem : IdemCfg) (tenantKey : String) (ctx : CallCtx)
    (now : Int) (error : NormError) (st : List (String × IdemRecord)) :
    List (String × IdemRecord) :=
  if ¬ idem.includeErrors then st
  else
    match get_idempotency_state_key idem tenantKey ctx with
    | none => st
    | some stateKey =>
        sset st stateKey
          { storedAt := now
            expiresAt := idem.ttlMs.map (fun ttl => now + ttl)
            ok := false
            error := some (StoredErr.mk error.message error.code error.statusCode) }

/-! ## Lock manager -/

inductive WaitMode where
  | reject
  | wait
deriving DecidableEq

structure ConcCfg where
  enabled : Bool := false
  leaseMs : Int := 30000
  waitMode : WaitMode := .reject
  waitTimeoutMs : Int := 5000
  pollIntervalMs : Int := 50
deriving DecidableEq

structure LockRef where
  key : String
  owner : String
deriving DecidableEq

/-- `acquire_resource_lock`.  The wait-mode poll loop is determinized
against a store no concurrent actor mutates: when the first try fails, a
zero wait timeout rejects immediately; otherwise the poll sleep observes
the caller's signal (cancellation) and the loop finally rejects on timeout.
`ownerToken` models the random owner token generated per acquisition. -/
def acquire_resource_lock (conc : ConcCfg) (tenantKey : String) (ctx : CallCtx)
    (ownerToken : String) (minimumLeaseMs : Int) (callerAborted : Bool) (now : Int)
    (st : List (String × LockState)) :
    List (String × LockState) × List Ev × Except NormError (Option LockRef) :=
  if ¬ conc.enabled then (st, [], .ok none)
  else
    match ctx.resourceKey with
    | none => (st, [], .ok none)
    | some rk =>
        let resourceKey := trim_str rk
        if resourceKey = "" then (st, [], .ok none)
        else
          let key := get_lock_state_key tenantKey resourceKey
          let leaseMs := max conc.leaseMs minimumLeaseMs
          let canAcquire :=
            match sget st key with
            | none => true
            | some existing => existing.expiresAt ≤ now
          if canAcquire then
            (sset st key { owner := ownerToken, expiresAt := now + leaseMs }, [],
              .ok (some { key := key, owner := ownerToken }))
          else if conc.waitMode = .reject then
            (st, [.concurrency_rejected],
              .error (make_failure "Concurrency lock is already held for resource"
                "INVALID_REQUEST"))
          else if conc.waitTimeoutMs ≤ 0 then
            (st, [.concurrency_wait, .concurrency_rejected],
              .error (make_failure "Concurrency lock wait timeout" "INVALID_REQUEST"))
          else if callerAborted then
            (st, [.concurrency_wait],
              .error (make_failure "Tool call cancelled by caller" "NETWORK_ERROR"))
          else
            (st, [.concurrency_wait, .concurrency_rejected],
              .error (make_failure "Concurrency lock wait timeout" "INVALID_REQUEST"))

/-- `release_resource_lock`: delete the record only when the stored owner
still matches the acquirer's token. -/
def release_resource_lock (lockRef : Option LockRef) (st : List (String × LockState)) :
    List (String × LockState) :=
  match lockRef with
  | none => st
  | some ref =>
      match sget st ref.key with
      | none => st
      | some state => if state.owner ≠ ref.owner then st else sdel st ref.key

/-! ## Retry engine -/

/-- `_compute_backoff_delay`; `rand` models the `random.random()` sample. -/
def compute_backoff_delay (retry : RetryCfg) (attempt : Nat) (rand : Flt) : Int :=
  let exponent := attempt - 1
  let baseDelay := flt_mul (flt_of_int retry.initialDelayMs) (flt_pow retry.backoffFactor exponent)
  let bounded := flt_min (flt_of_int retry.maxDelayMs) (flt_max (flt_of_int 0) baseDelay)
  if flt_le retry.jitterRatio (flt_of_int 0) then flt_round bounded
  else
    let jitterOffset :=
      flt_mul (flt_sub (flt_mul rand (flt_of_int 2)) (flt_of_int 1)) retry.jitterRatio
    max 0 (flt_round (flt_mul bounded (flt_add (flt_of_int 1) jitterOffset)))

/-- What a custom retry classifier may return: a boolean, a decision
dictionary, or anything else. -/
inductive ClassifierRaw where
  | cbool (b : Bool)
  | cdec (retryable : Bool) (reason : Option String) (delayMs : Option Int)
  | cother

/-- The input dictionary handed to a retry classifier. -/
structure ClassifierInput where
  errorMessage : String
  errorCode : String
  errorStatusCode : Option Int
  rawError : RawError
  statusCode : Option Int
  cancelledByCaller : Bool
  attempt : Nat
  maxAttempts : Nat
  toolName : String
  destination : Option String
  action : Option String

structure RetryDecision where
  retryable : Bool
  reason : Option String := none
  delayMs : Option Int := none
deriving DecidableEq

/-- `resolve_retry_decision`: booleans pass through, decision dictionaries
normalize `delayMs` (negative or non-numeric becomes absent), anything else
falls back to the default decision. -/
def resolve_retry_decision (classifier : Option (ClassifierInput → ClassifierRaw))
    (input : ClassifierInput) (defaultRetryable : Bool) : RetryDecision :=
  match classifier with
  | none => { retryable := defaultRetryable }
  | some cl =>
      match cl input with
      | .cbool b => { retryable := b }
      | .cother => { retryable := defaultRetryable }
      | .cdec retryable reason delayMs =>
          { retryable := retryable
            reason := reason
            delayMs := match delayMs with
              | some d => if d ≥ 0 then some d else none
              | none => none }

/-! ## The `run` orchestrator -/

/-- The resolved configuration (`_resolve_config` output) as consumed by
`run`. -/
structure ResolvedConfig where
  tenantKey : String := "default"
  timeoutMs : Int := 60000
  maxToolCalls : Option Int := none
  retry : RetryCfg := DEFAULT_RETRY
  retryClassifier : Option (ClassifierInput → ClassifierRaw) := none
  loopBreaker : LoopCfg := DEFAULT_LOOP_BREAKER
  circuitBreaker : CircuitCfg := DEFAULT_CIRCUIT_BREAKER
  policy : PolicyCfg := {}
  verifiers : VerifierCfg := {}
  idempotency : IdemCfg := {}
  concurrency : ConcCfg := {}
  overridesTools : List OverrideEntry := []
  overridesDests : List OverrideEntry := []

/-- What the executor does on a given attempt: return a value, throw, or
exceed the per-attempt timeout (the fused run-signal timer fires). -/
inductive ExecOutcome where
  | ok (v : JVal)
  | raiseErr (e : RawError)
  | timeout

/-- The environment of one `run` invocation: the executor's behavior per
attempt, the caller's abort signal as observed before an attempt's race
(`sigPre`) and at its failure handling / backoff sleep (`sigPost`), the
backoff PRNG samples, and the random lock owner token.  A real abort signal
is monotone: once `sigPre n` or `sigPost n` is true all later observations
are true; hypotheses state this where a theorem needs it. -/
structure RunEnv where
  exec : Nat → ExecOutcome
  sigPre : Nat → Bool := fun _ => false
  sigPost : Nat → Bool := fun _ => false
  rand : Nat → Flt := fun _ => { num := 0, den := 1 }
  ownerToken : String := "owner"

/-- Accumulator threaded through the attempt loop. -/
structure Acc where
  stores : Stores
  events : List Ev
  execCount : Nat

/-- Outcome of one attempt: a returned value, a terminal failure raised out
of the loop, or a decision to retry. -/
inductive AttemptRes where
  | success (acc : Acc) (v : JVal)
  | terminal (acc : Acc) (e : NormError)
  | again (acc : Acc)

/-- Rebuild the raw shape of an exception produced by `_make_failure` (it
carries `code` and both status attributes). -/
def raw_of_norm (e : NormError) : RawError :=
  { message := e.message, code := some e.code,
    status_code := e.statusCode, statusCode := e.statusCode }

/-- The `except` branch of the attempt loop: normalize the failure, run the
after-error verifier, record the circuit sample for execute-phase failures,
decide the retry, and either finish (recording the loop outcome and the
idempotent error) or emit `retry` and sleep through the backoff. -/
def run_attempt_failure (cfg : ResolvedConfig) (eff : EffCfg) (ctx : CallCtx)
    (env : RunEnv) (fingerprint : String) (now : Int) (attempt : Nat)
    (raw : RawError) (didTimeout : Bool) (phaseExecute : Bool) (acc : Acc) : AttemptRes :=
  let status_code := extract_status_code raw
  let cancelled := env.sigPost attempt
  let normalized0 := normalize_failure raw didTimeout cancelled status_code
  let verifierOut := apply_error_verifier cfg.verifiers ctx normalized0 raw
  let vevs := verifierOut.1
  let normalized := verifierOut.2
  let circuitOut :=
    if phaseExecute then
      record_circuit_call eff.circuitBreaker cfg.tenantKey ctx.toolName ctx.destination
        true now acc.stores.circuit
    else (acc.stores.circuit, [])
  let circuitStore := circuitOut.1
  let cevs := circuitOut.2
  let acc := { acc with
    stores := { acc.stores with circuit := circuitStore }
    events := acc.events ++ vevs ++ cevs }
  let normalized_status := status_code.orElse fun _ => normalized.statusCode
  let defaultRetryable := decide (attempt < eff.retry.maxAttempts)
    && should_retry_failure normalized normalized_status cancelled
  let decision := resolve_retry_decision cfg.retryClassifier
    { errorMessage := normalized.message
      errorCode := normalized.code
      errorStatusCode := normalized.statusCode
      rawError := raw
      statusCode := normalized_status
      cancelledByCaller := cancelled
      attempt := attempt
      maxAttempts := eff.retry.maxAttempts
      toolName := ctx.toolName
      destination := ctx.destination
      action := ctx.action }
    defaultRetryable
  let canRetry := decide (attempt < eff.retry.maxAttempts) && decision.retryable
  if ¬ canRetry then
    let loopOut := record_loop_outcome eff.loopBreaker cfg.tenantKey fingerprint
      ctx.toolName
      (build_outcome_hash false normalized_status (some normalized.code)
        (some normalized.message) none)
      now acc.stores.loop
    let loopStore := loopOut.1
    let levs := loopOut.2
    let idemStore := store_idempotency_error cfg.idempotency cfg.tenantKey ctx now
      normalized acc.stores.idem
    .terminal { acc with
      stores := { acc.stores with loop := loopStore, idem := idemStore }
      events := acc.events ++ levs } normalized
  else
    let delayMs := decision.delayMs.getD (compute_backoff_delay eff.retry attempt
      (env.rand attempt))
    let acc := { acc with events := acc.events ++ [Ev.retry] }
    if delayMs ≤ 0 then .again acc
    else if env.sigPost attempt then
      .terminal acc (make_failure "Tool call cancelled by caller" "NETWORK_ERROR")
    else .again acc

/-- One iteration of the attempt loop after the circuit gate: race the
executor against the fused signal, then the success path (circuit sample,
success verifier, idempotency store, loop outcome) or the failure path. -/
def run_one_attempt (cfg : ResolvedConfig) (eff : EffCfg) (ctx : CallCtx) (env : RunEnv)
    (fingerprint : String) (now : Int) (attempt : Nat) (acc : Acc) : AttemptRes :=
  if env.sigPre attempt then
    -- `_race_with_abort` raises "aborted" before invoking the executor
    run_attempt_failure cfg eff ctx env fingerprint now attempt
      { message := "aborted" } false true acc
  else
    match env.exec attempt with
    | .raiseErr e =>
        run_attempt_failure cfg eff ctx env fingerprint now attempt e false true
          { acc with execCount := acc.execCount + 1 }
    | .timeout =>
        run_attempt_failure cfg eff ctx env fingerprint now attempt
          { message := "aborted" } true true
          { acc with execCount := acc.execCount + 1 }
    | .ok v =>
        let acc1 := { acc with execCount := acc.execCount + 1 }
        let circuitOut := record_circuit_call eff.circuitBreaker
          cfg.tenantKey ctx.toolName ctx.destination false now acc1.stores.circuit
        let acc2 := { acc1 with
          stores := { acc1.stores with circuit := circuitOut.1 }
          events := acc1.events ++ circuitOut.2 }
        let sv := enforce_success_verifier cfg.verifiers ctx v
        match sv.2 with
        | some verr =>
            -- the success-verifier failure re-enters the except branch with
            -- error_phase = "after_success"
            run_attempt_failure cfg eff ctx env fingerprint now attempt
              (raw_of_norm verr) false false
              { acc2 with events := acc2.events ++ sv.1 }
        | none =>
            let idemStore := store_idempotency_success cfg.idempotency
              cfg.tenantKey ctx now v acc2.stores.idem
            let loopOut := record_loop_outcome eff.loopBreaker
              cfg.tenantKey fingerprint ctx.toolName
              (build_outcome_hash true none none none (some v)) now
              acc2.stores.loop
            .success { acc2 with
              stores := { acc2.stores with loop := loopOut.1, idem := idemStore }
              events := acc2.events ++ sv.1 ++ loopOut.2 } v

/-- The attempt loop of `run` (`for attempt in range(1, maxAttempts+1)`),
structural on the remaining attempts; running out of attempts falls off the
loop into the final `NETWORK_ERROR`. -/
def attempt_loop (cfg : ResolvedConfig) (eff : EffCfg) (ctx : CallCtx) (env : RunEnv)
    (fingerprint : String) (now : Int) :
    Nat → Nat → Acc → Acc × Except NormError JVal
  | 0, _, acc =>
      (acc, .error (make_failure "Tool call failed after retries" "NETWORK_ERROR"))
  | remaining + 1, attempt, acc =>
      match enforce_circuit_before_call eff.circuitBreaker cfg.tenantKey ctx.toolName
        ctx.destination now acc.stores.circuit with
      | some e => (acc, .error e)
      | none =>
          match run_one_attempt cfg eff ctx env fingerprint now attempt acc with
          | .success acc' v => (acc', .ok v)
          | .terminal acc' e => (acc', .error e)
          | .again acc' =>
              attempt_loop cfg eff ctx env fingerprint now remaining (attempt + 1) acc'

/-- The full result of a `run` invocation. -/
structure RunOut where
  stores : Stores
  events : List Ev
  execCount : Nat
  result : Except NormError JVal

/-- The `run` orchestrator: validate, policy, before-verifier, idempotency
replay, budget, loop pre-call, lock acquisition, attempt loop, and the
`finally` release of the lock. -/
def run (cfg : ResolvedConfig) (ctx : CallCtx) (env : RunEnv) (now : Int)
    (st : Stores) : RunOut :=
  if ctx.toolName = "" then
    { stores := st, events := [], execCount := 0,
      result := .error (make_failure "run() requires context.toolName" "VALIDATION_ERROR") }
  else
    let eff := resolve_effective_call_config cfg.timeoutMs cfg.retry cfg.loopBreaker
      cfg.circuitBreaker cfg.overridesTools cfg.overridesDests ctx
    let fingerprint := build_fingerprint ctx.toolName ctx.args
    let policyOut := enforce_policy cfg.policy ctx
    match policyOut.2 with
    | some e => { stores := st, events := policyOut.1, execCount := 0, result := .error e }
    | none =>
    let bvOut := enforce_before_verifier cfg.verifiers ctx
    let evs1 := policyOut.1 ++ bvOut.1
    match bvOut.2 with
    | some e => { stores := st, events := evs1, execCount := 0, result := .error e }
    | none =>
    let replayOut := try_replay_idempotency cfg.idempotency cfg.tenantKey ctx now st.idem
    let st1 := { st with idem := replayOut.1 }
    let evs2 := evs1 ++ replayOut.2.1
    match replayOut.2.2 with
    | .hit v => { stores := st1, events := evs2, execCount := 0, result := .ok v }
    | .raiseErr e => { stores := st1, events := evs2, execCount := 0, result := .error e }
    | .miss =>
    let budgetOut := enforce_run_budget cfg.maxToolCalls cfg.tenantKey ctx st1.budget
    let st2 := { st1 with budget := budgetOut.1 }
    let evs3 := evs2 ++ budgetOut.2.1
    match budgetOut.2.2 with
    | some e => { stores := st2, events := evs3, execCount := 0, result := .error e }
    | none =>
    let loopOut := enforce_loop_before_call eff.loopBreaker cfg.tenantKey
      fingerprint now st2.loop
    let st3 := { st2 with loop := loopOut.1 }
    match loopOut.2 with
    | some e => { stores := st3, events := evs3, execCount := 0, result := .error e }
    | none =>
    let minLease := if eff.timeoutMs > 0 then eff.timeoutMs + 1000 else cfg.concurrency.leaseMs
    let lockOut := acquire_resource_lock cfg.concurrency cfg.tenantKey
      ctx env.ownerToken minLease (env.sigPre 1) now st3.lock
    let st4 := { st3 with lock := lockOut.1 }
    let evs4 := evs3 ++ lockOut.2.1
    match lockOut.2.2 with
    | .error e => { stores := st4, events := evs4, execCount := 0, result := .error e }
    | .ok lockRef =>
        let loopRes := attempt_loop cfg eff ctx env fingerprint now
          eff.retry.maxAttempts 1 { stores := st4, events := evs4, execCount := 0 }
        let finalLock := release_resource_lock lockRef loopRes.1.stores.lock
        { stores := { loopRes.1.stores with lock := finalLock }
          events := loopRes.1.events
          execCount := loopRes.1.execCount
          result := loopRes.2 }

/-! ## Agent-logic safety composer (`agent_logic_safety.py`)

The composer operates on the raw (pre-resolution) configuration.  A compiled
regex is modelled as its search function paired with its pattern text. -/

/-- `json.dumps(value, sort_keys=True)` as used by `_safe_serialize`
(default separators `", "` and `": "`; cycles cannot arise for `JVal`). -/
def joinCommaSp : List String → String
  | [] => ""
  | [s] => s
  | s :: rest => s ++ ", " ++ joinCommaSp rest

mutual
def safe_serialize : JVal → String
  | .jnull => "null"
  | .jbool b => if b then "true" else "false"
  | .jnum n => toString n
  | .jstr s => json_quote s
  | .arr items => "[" ++ joinCommaSp (safe_serialize_list items) ++ "]"
  | .obj es =>
      "\x7b" ++ joinCommaSp ((sortPairs (safe_serialize_entries es)).map
        (fun p => json_quote p.1 ++ ": " ++ p.2)) ++ "\x7d"

def safe_serialize_list : JArr → List String
  | .nil => []
  | .cons v tl => safe_serialize v :: safe_serialize_list tl

def safe_serialize_entries : JObj → List (String × String)
  | .nil => []
  | .cons k v tl => (k, safe_serialize v) :: safe_serialize_entries tl
end

/-- An injection-guard pattern: a compiled regex (modelled by its pattern
text and search function) or a plain string (escaped into a
case-insensitive literal search). -/
inductive InjPattern where
  | compiled (src : String) (search : String → Bool)
  | strLit (s : String)

/-- The default injection regexes, modelled as case-insensitive substring
searches for representative literals (no claim evaluates them). -/
def DEFAULT_INJECTION_PATTERNS : List (String × (String → Bool)) :=
  [("ignore previous instructions", fun c => contains_ci c "ignore previous instructions"),
    ("system prompt", fun c => contains_ci c "system prompt"),
    ("developer message", fun c => contains_ci c "developer message"),
    ("<script", fun c => contains_ci c "<script"),
    ("rm -rf", fun c => contains_ci c "rm -rf")]

structure InjGuardCfg where
  enabled : Option Bool := none
  reason : Option String := none
  patterns : Option (List InjPattern) := none

structure TerminalAction where
  toolNamePattern : Option String := none
  actionPfx : Option String := none

structure ExitCfg where
  enabled : Option Bool := none
  maxStepsPerRun : Option Int := none
  blockAfterTerminal : Option Bool := none
  terminalActions : Option (List TerminalAction) := none

structure AllowlistRule where
  id : Option String := none
  toolNamePattern : Option String := none
  actionPrefixes : Option (List String) := none
  destinations : Option (List String) := none
  reason : Option String := none

structure AllowlistCfg where
  enabled : Option Bool := none
  rules : Option (List AllowlistRule) := none
  denyReason : Option String := none

structure SafetyCfg where
  injectionGuard : Option InjGuardCfg := none
  exitCondition : Option ExitCfg := none
  intentAllowlist : Option AllowlistCfg := none

structure InjMatcher where
  enabled : Bool
  reason : String
  patterns : List (String × (String → Bool))

/-- `_build_injection_matcher`: disabled when absent or `enabled is False`;
an empty or absent pattern list falls back to the defaults. -/
def build_injection_matcher (safety : SafetyCfg) : InjMatcher :=
  match safety.injectionGuard with
  | none => { enabled := false, reason := "", patterns := [] }
  | some guard =>
      if guard.enabled = some false then { enabled := false, reason := "", patterns := [] }
      else
        { enabled := true
          reason := reason_or guard.reason "Potential prompt/tool injection pattern detected"
          patterns :=
            match guard.patterns with
            | some ps =>
                if ps.isEmpty then DEFAULT_INJECTION_PATTERNS
                else ps.map (fun p =>
                  match p with
                  | .compiled src search => (src, search)
                  | .strLit s => (s, fun c => contains_ci c s))
            | none => DEFAULT_INJECTION_PATTERNS }

/-- `_matches_terminal_action`. -/
def matches_terminal_action (ctx : CallCtx) (exitCond : ExitCfg) : Bool :=
  let terminals := (exitCond.terminalActions).getD []
  match ctx.action with
  | none => false
  | some action =>
      if terminals.isEmpty then false
      else terminals.any (fun t =>
        match_pattern ctx.toolName ((reason_or t.toolNamePattern "*"))
          && (match t.actionPfx with
            | some p => action.startsWith p
            | none => false))

structure ExitState where
  steps : Int := 0
  terminalReached : Bool := false
deriving DecidableEq

/-- The safety layer's before-call verifier: injection guard, then the
exit-condition step counter kept under `agent_logic_exit:{runKey}`. -/
def safety_before_call (inj : InjMatcher) (exitEnabled : Bool) (maxSteps : Int)
    (blockAfterTerminal : Bool) (exitCond : ExitCfg) (ctx : CallCtx)
    (store : List (String × ExitState)) : Verdict × List (String × ExitState) :=
  let candidate := ctx.toolName ++ "\n" ++ (ctx.action.getD "") ++ "\n"
    ++ (ctx.destination.getD "") ++ "\n"
    ++ safe_serialize (ctx.args.getD .jnull)
  match (if inj.enabled then inj.patterns.find? (fun p => p.2 candidate) else none) with
  | some p =>
      ({ allow := false, reason := some (inj.reason ++ " (matched: " ++ p.1 ++ ")") }, store)
  | none =>
      if ¬ exitEnabled then ({ allow := true }, store)
      else
        let runKey := normalize_run_key ctx.runKey
        let stateKey := "agent_logic_exit:" ++ runKey
        let state := (sget store stateKey).getD {}
        if state.terminalReached ∧ blockAfterTerminal then
          ({ allow := false,
             reason := some "Run already reached terminal action; further tool calls are blocked" },
            store)
        else
          let nextSteps := state.steps + 1
          let terminalReached := state.terminalReached || matches_terminal_action ctx exitCond
          let store1 := sset store stateKey
            { steps := nextSteps, terminalReached := terminalReached }
          if ¬ terminalReached ∧ nextSteps > maxSteps then
            ({ allow := false,
               reason := some ("Exit condition not reached within " ++ toString maxSteps
                 ++ " tool calls") }, store1)
          else ({ allow := true }, store1)

/-- `_build_intent_allowlist_policy_rules`: one allow rule per entry with a
non-empty tool pattern, then the catch-all deny. -/
def build_intent_allowlist_policy_rules (safety : SafetyCfg) : List PolicyRule :=
  match safety.intentAllowlist with
  | none => []
  | some allowlist =>
      if allowlist.enabled = some false then []
      else
        match allowlist.rules with
        | none => []
        | some rules =>
            if rules.isEmpty then []
            else
              let allowRules := (rules.enum.filterMap (fun (entry : Nat × AllowlistRule) =>
                match entry.2.toolNamePattern with
                | none => none
                | some pat =>
                    if pat = "" then none
                    else some
                      { id := some ((entry.2.id).getD ("agent_logic_allow_"
                          ++ toString (entry.1 + 1)))
                        action := PolicyAction.allow
                        tools := some [pat]
                        actionPrefixes := entry.2.actionPrefixes
                        destinations := entry.2.destinations
                        reason := entry.2.reason }))
              if allowRules.isEmpty then
                [{ id := some "agent_logic_deny_unlisted"
                   action := .deny
                   tools := some ["*"]
                   reason := some (reason_or allowlist.denyReason
                     "Tool call is not in the configured intent allowlist") }]
              else
                allowRules ++
                  [{ id := some "agent_logic_deny_unlisted"
                     action := .deny
                     tools := some ["*"]
                     reason := some (reason_or allowlist.denyReason
                       "Tool call is not in the configured intent allowlist") }]

/-- `_merge_before_call_verifiers`: an existing base verifier runs first and
short-circuits rejections before the safety check. -/
def merge_before_call_verifiers (baseBeforeCall : Option (CallCtx → VerdictRaw))
    (safetyCheck : CallCtx → List (String × ExitState) →
      Verdict × List (String × ExitState)) (ctx : CallCtx)
    (store : List (String × ExitState)) : Verdict × List (String × ExitState) :=
  match baseBeforeCall with
  | none => safetyCheck ctx store
  | some base =>
      let baseDecision := normalize_verifier_decision (base ctx)
      if ¬ baseDecision.allow then (baseDecision, store)
      else safetyCheck ctx store

/-- The raw (pre-resolution) policy block of a base configuration. -/
structure PolicyCfgRaw where
  mode : Option PolicyMode := none
  rules : List PolicyRule := []
  approvalHandler : Option (PolicyRule → CallCtx → Bool) := none

/-- The slice of a base configuration the composer touches. -/
structure AgentBaseCfg where
  beforeCall : Option (CallCtx → VerdictRaw) := none
  policy : Option PolicyCfgRaw := none

/-- The composed configuration: the merged before-call verifier (stateful
through the exit-condition store) and the policy block. -/
structure MergedCfg where
  beforeCall : CallCtx → List (String × ExitState) → Verdict × List (String × ExitState)
  policy : Option PolicyCfgRaw

/-- `apply_agent_logic_safety`. -/
def apply_agent_logic_safety (base : AgentBaseCfg) (safety : SafetyCfg) : MergedCfg :=
  let inj := build_injection_matcher safety
  let exitCond := (safety.exitCondition).getD {}
  let exitEnabled := exitCond.enabled = some true
  let maxSteps := max 1 (match exitCond.maxStepsPerRun with
    | some n => if n = 0 then 30 else n
    | none => 30)
  let blockAfterTerminal := exitCond.blockAfterTerminal.getD true
  let allowlistRules := build_intent_allowlist_policy_rules safety
  { beforeCall := merge_before_call_verifiers base.beforeCall
      (safety_before_call inj exitEnabled maxSteps blockAfterTerminal exitCond)
    policy :=
      if allowlistRules.isEmpty then base.policy
      else
        let basePolicy := base.policy.getD {}
        some { mode := some (basePolicy.mode.getD .enforce)
               rules := allowlistRules ++ basePolicy.rules
               approvalHandler := basePolicy.approvalHandler } }

/-! ## Key-order equivalence of JSON values (for the fingerprint claim)

`KeyReorder a b` says `a` and `b` contain the same key-value pairs but may
enumerate object keys in different orders, recursively at every nesting
level: object entries of `a` align pointwise (same keys, recursively
reordered values) with a permutation of the entries of `b`.  `WFJ` states
what Python guarantees for dictionaries: keys are distinct at every level. -/

inductive KeyReorder : JVal → JVal → Prop where
  | jnull : KeyReorder .jnull .jnull
  | jbool (b : Bool) : KeyReorder (.jbool b) (.jbool b)
  | jnum (n : Int) : KeyReorder (.jnum n) (.jnum n)
  | jstr (s : String) : KeyReorder (.jstr s) (.jstr s)
  | arr {l1 l2 : JArr} :
      List.Forall₂ KeyReorder l1.toList l2.toList →
      KeyReorder (.arr l1) (.arr l2)
  | obj {e1 e2 : JObj} {e2x : List (String × JVal)} :
      e1.toList.map Prod.fst = e2x.map Prod.fst →
      List.Forall₂ KeyReorder (e1.toList.map Prod.snd) (e2x.map Prod.snd) →
      e2x.Perm e2.toList →
      KeyReorder (.obj e1) (.obj e2)

inductive WFJ : JVal → Prop where
  | jnull : WFJ .jnull
  | jbool (b : Bool) : WFJ (.jbool b)
  | jnum (n : Int) : WFJ (.jnum n)
  | jstr (s : String) : WFJ (.jstr s)
  | arr {l : JArr} : (∀ v ∈ l.toList, WFJ v) → WFJ (.arr l)
  | obj {es : JObj} :
      (es.toList.map Prod.fst).Nodup →
      (∀ p ∈ es.toList, WFJ p.2) →
      WFJ (.obj es)

/-! # Theorems

First the order-theoretic facts about the code-point string order and the
entry sort, then the claim theorems. -/

theorem chars_le_refl (a : List Char) : chars_le a a = true := by
  induction a with
  | nil => rfl
  | cons c tl ih => simp [chars_le, ih]

theorem chars_le_total (a b : List Char) :
    chars_le a b = true ∨ chars_le b a = true := by
  induction a generalizing b with
  | nil => left; rfl
  | cons c tl ih =>
      cases b with
      | nil => right; rfl
      | cons d bs =>
          by_cases hcd : c = d
          · subst hcd
            simpa [chars_le] using ih bs
          · rcases lt_trichotomy c d with h | h | h
            · left; simp [chars_le, hcd, h]
            · exact absurd h hcd
            · right
              have hdc : ¬ d = c := fun hdc => hcd hdc.symm
              simp [chars_le, hdc, h]

theorem chars_le_trans (a b c : List Char) (hab : chars_le a b = true)
    (hbc : chars_le b c = true) : chars_le a c = true := by
  induction a generalizing b c with
  | nil => rfl
  | cons x xs ih =>
      cases b with
      | nil => simp [chars_le] at hab
      | cons y ys =>
          cases c with
          | nil => simp [chars_le] at hbc
          | cons z zs =>
              by_cases hxy : x = y
              · subst hxy
                by_cases hyz : x = z
                · subst hyz
                  simp only [chars_le, if_pos rfl] at hab hbc ⊢
                  exact ih ys zs hab hbc
                · simp only [chars_le, if_pos rfl] at hab
                  simp only [chars_le, if_neg hyz] at hbc ⊢
                  exact hbc
              · simp only [chars_le, if_neg hxy, decide_eq_true_eq] at hab
                by_cases hyz : y = z
                · subst hyz
                  simp [chars_le, hxy, hab]
                · simp only [chars_le, if_neg hyz, decide_eq_true_eq] at hbc
                  have hxz : x < z := lt_trans hab hbc
                  have : ¬ x = z := ne_of_lt hxz
                  simp [chars_le, this, hxz]

theorem chars_le_antisymm (a b : List Char) (hab : chars_le a b = true)
    (hba : chars_le b a = true) : a = b := by
  induction a generalizing b with
  | nil =>
      cases b with
      | nil => rfl
      | cons d bs => simp [chars_le] at hba
  | cons c tl ih =>
      cases b with
      | nil => simp [chars_le] at hab
      | cons d bs =>
          by_cases hcd : c = d
          · subst hcd
            simp only [chars_le, if_pos rfl] at hab hba
            exact congrArg _ (ih bs hab hba)
          · simp only [chars_le, if_neg hcd, decide_eq_true_eq] at hab
            simp only [chars_le, if_neg (fun h : d = c => hcd h.symm),
              decide_eq_true_eq] at hba
            exact absurd hab (lt_asymm hba)

theorem str_le_total (a b : String) : str_le a b = true ∨ str_le b a = true :=
  chars_le_total a.data b.data

theorem str_le_trans (a b c : String) (hab : str_le a b = true)
    (hbc : str_le b c = true) : str_le a c = true :=
  chars_le_trans a.data b.data c.data hab hbc

theorem str_le_antisymm (a b : String) (hab : str_le a b = true)
    (hba : str_le b a = true) : a = b := by
  have h := chars_le_antisymm a.data b.data hab hba
  cases a; cases b
  exact congrArg String.mk h

theorem sortPairs_perm (l : List (String × String)) : (sortPairs l).Perm l :=
  List.perm_insertionSort pair_le l

theorem sortPairs_sorted (l : List (String × String)) :
    List.Sorted pair_le (sortPairs l) := by
  haveI : IsTotal (String × String) pair_le := ⟨fun a b => str_le_total a.1 b.1⟩
  haveI : IsTrans (String × String) pair_le :=
    ⟨fun a b c hab hbc => str_le_trans a.1 b.1 c.1 hab hbc⟩
  exact List.sorted_insertionSort pair_le l

/-- The strict key order used to identify equal sorts. -/
theorem sortPairs_eq_of_perm (l1 l2 : List (String × String)) (hp : l1.Perm l2)
    (hn : (l1.map Prod.fst).Nodup) : sortPairs l1 = sortPairs l2 := by
  have hn2 : (l2.map Prod.fst).Nodup := ((hp.map Prod.fst).nodup_iff).mp hn
  haveI : IsAntisymm (String × String)
      (fun a b => pair_le a b ∧ a.1 ≠ b.1) :=
    ⟨fun a b h h' => absurd (str_le_antisymm a.1 b.1 h.1 h'.1) h.2⟩
  have strict : ∀ (l : List (String × String)), (l.map Prod.fst).Nodup →
      List.Sorted pair_le (sortPairs l) →
      List.Sorted (fun a b => pair_le a b ∧ a.1 ≠ b.1) (sortPairs l) := by
    intro l hnd hs
    have hnd' : ((sortPairs l).map Prod.fst).Nodup :=
      (((sortPairs_perm l).map Prod.fst).nodup_iff).mpr hnd
    have hne : (sortPairs l).Pairwise (fun a b => a.1 ≠ b.1) := by
      have hmap : ((sortPairs l).map Prod.fst).Pairwise (fun a b => a ≠ b) := hnd'
      exact List.pairwise_map.mp hmap
    exact hs.and hne
  have hperm : (sortPairs l1).Perm (sortPairs l2) :=
    ((sortPairs_perm l1).trans hp).trans (sortPairs_perm l2).symm
  exact List.eq_of_perm_of_sorted hperm
    (strict l1 hn (sortPairs_sorted l1)) (strict l2 hn2 (sortPairs_sorted l2))

theorem JArr.sizeOf_toList_mem : ∀ (l : JArr) (v : JVal), v ∈ l.toList → sizeOf v < sizeOf l
  | .nil, _, h => by simp [JArr.toList] at h
  | .cons head tail, v, h => by
      simp only [JArr.toList, List.mem_cons] at h
      rcases h with h | h
      · subst h; simp; omega
      · have := JArr.sizeOf_toList_mem tail v h
        simp; omega

theorem JObj.sizeOf_snd_toList_mem : ∀ (es : JObj) (p : String × JVal), p ∈ es.toList →
    sizeOf p.2 < sizeOf es
  | .nil, _, h => by simp [JObj.toList] at h
  | .cons k v tail, p, h => by
      simp only [JObj.toList, List.mem_cons] at h
      rcases h with h | h
      · subst h; simp; omega
      · have := JObj.sizeOf_snd_toList_mem tail p h
        simp; omega

theorem stringify_list_eq : ∀ l : JArr, stringify_list l = l.toList.map stable_stringify
  | .nil => rfl
  | .cons head tail => by
      simp [stringify_list, JArr.toList, stringify_list_eq tail]

theorem stringify_entries_eq : ∀ es : JObj,
    stringify_entries es = es.toList.map (fun p => (p.1, stable_stringify p.2))
  | .nil => rfl
  | .cons k v tail => by
      simp [stringify_entries, JObj.toList, stringify_entries_eq tail]

theorem forall2_map_stringify (n : Nat)
    (ih : ∀ a b : JVal, sizeOf a ≤ n → KeyReorder a b → WFJ a → WFJ b →
      stable_stringify a = stable_stringify b)
    (x y : List JVal) (hf : List.Forall₂ KeyReorder x y)
    (hx : ∀ v ∈ x, sizeOf v ≤ n ∧ WFJ v) (hy : ∀ v ∈ y, WFJ v) :
    x.map stable_stringify = y.map stable_stringify := by
  induction hf with
  | nil => rfl
  | @cons a b as bs hab htail ihl =>
      simp only [List.map_cons]
      have h1 := ih a b (hx a (by simp)).1 hab (hx a (by simp)).2 (hy b (by simp))
      rw [h1, ihl (fun v hv => hx v (by simp [hv])) (fun v hv => hy v (by simp [hv]))]

theorem forall2_map_entries (n : Nat)
    (ih : ∀ a b : JVal, sizeOf a ≤ n → KeyReorder a b → WFJ a → WFJ b →
      stable_stringify a = stable_stringify b) :
    ∀ (x y : List (String × JVal)), x.map Prod.fst = y.map Prod.fst →
      List.Forall₂ KeyReorder (x.map Prod.snd) (y.map Prod.snd) →
      (∀ p ∈ x, sizeOf p.2 ≤ n ∧ WFJ p.2) → (∀ p ∈ y, WFJ p.2) →
      x.map (fun p => (p.1, stable_stringify p.2))
        = y.map (fun p => (p.1, stable_stringify p.2)) := by
  intro x
  induction x with
  | nil =>
      intro y hk _ _ _
      cases y with
      | nil => rfl
      | cons q qs => simp at hk
  | cons p ps ihx =>
      intro y hk hv hx hy
      cases y with
      | nil => simp at hk
      | cons q qs =>
          simp only [List.map_cons, List.cons.injEq] at hk hv ⊢
          cases hv with
          | cons hpq htail =>
              refine ⟨?_, ?_⟩
              · have h2 := ih p.2 q.2 (hx p (by simp)).1 hpq (hx p (by simp)).2
                  (hy q (by simp))
                exact Prod.ext hk.1 h2
              · exact ihx qs hk.2 htail (fun r hr => hx r (by simp [hr]))
                  (fun r hr => hy r (by simp [hr]))

theorem keyReorder_stringify_aux :
    ∀ (n : Nat) (a b : JVal), sizeOf a ≤ n → KeyReorder a b → WFJ a → WFJ b →
      stable_stringify a = stable_stringify b := by
  intro n
  induction n with
  | zero =>
      intro a b hs _ _ _
      exfalso
      cases a <;> simp at hs
  | succ n ih =>
      intro a b hs h wa wb
      cases h with
      | jnull => rfl
      | jbool b => rfl
      | jnum m => rfl
      | jstr s => rfl
      | @arr l1 l2 hf =>
          cases wa with
          | arr wal =>
          cases wb with
          | arr wbl =>
          have hsz : ∀ v ∈ l1.toList, sizeOf v ≤ n ∧ WFJ v := by
            intro v hv
            refine ⟨?_, wal v hv⟩
            have h1 := JArr.sizeOf_toList_mem l1 v hv
            have h2 : sizeOf (JVal.arr l1) = 1 + sizeOf l1 := by simp
            omega
          simp only [stable_stringify, stringify_list_eq]
          rw [forall2_map_stringify n ih l1.toList l2.toList hf hsz wbl]
      | @obj e1 e2 e2x hk hv hp =>
          cases wa with
          | obj hn1 hw1 =>
          cases wb with
          | obj hn2 hw2 =>
          have hsz : ∀ p ∈ e1.toList, sizeOf p.2 ≤ n ∧ WFJ p.2 := by
            intro p hp'
            refine ⟨?_, hw1 p hp'⟩
            have h1 := JObj.sizeOf_snd_toList_mem e1 p hp'
            have h2 : sizeOf (JVal.obj e1) = 1 + sizeOf e1 := by simp
            omega
          have heq : e1.toList.map (fun p => (p.1, stable_stringify p.2))
              = e2x.map (fun p => (p.1, stable_stringify p.2)) :=
            forall2_map_entries n ih e1.toList e2x hk hv hsz
              (fun p hp' => hw2 p (hp.subset hp'))
          have hperm : (e2x.map (fun p => (p.1, stable_stringify p.2))).Perm
              (e2.toList.map (fun p => (p.1, stable_stringify p.2))) := hp.map _
          have hfst : ((e2x.map (fun p => (p.1, stable_stringify p.2))).map Prod.fst)
              = e2x.map Prod.fst := by
            rw [List.map_map]
            rfl
          have hnodx : ((e2x.map (fun p => (p.1, stable_stringify p.2))).map
              Prod.fst).Nodup := by
            rw [hfst]
            exact ((hp.map Prod.fst).nodup_iff).mpr hn2
          have hsort := sortPairs_eq_of_perm _ _ hperm hnodx
          simp only [stable_stringify, stringify_entries_eq]
          rw [heq, hsort]

/-! ## Store lemmas -/

theorem sget_sset_self {V : Type} (s : List (String × V)) (k : String) (v : V) :
    sget (sset s k v) k = some v := by
  induction s with
  | nil => simp [sset, sget]
  | cons p tl ih =>
      by_cases h : p.1 = k
      · simp [sset, sget, h]
      · simp [sset, sget, h, ih]

theorem sget_sdel_self {V : Type} (s : List (String × V)) (k : String) :
    sget (sdel s k) k = none := by
  induction s with
  | nil => simp [sdel, sget]
  | cons p tl ih =>
      by_cases h : p.1 = k
      · simp [sdel, h, ih]
      · simp [sdel, sget, h, ih]

/-! ## Event-shape lemmas for the attempt loop -/

theorem apply_error_verifier_no_retry (verifiers : VerifierCfg) (ctx : CallCtx)
    (normalized : NormError) (raw : RawError) :
    Ev.retry ∉ (apply_error_verifier verifiers ctx normalized raw).1 := by
  unfold apply_error_verifier
  cases verifiers.afterError with
  | none => simp
  | some verifier =>
      by_cases h : (normalize_verifier_decision (verifier ctx normalized raw)).allow <;>
        simp [h]

theorem record_circuit_call_no_retry (circuitCfg : CircuitCfg) (tenantKey toolName : String)
    (destination : Option String) (failed : Bool) (now : Int)
    (st : List (String × CircuitState)) :
    Ev.retry ∉ (record_circuit_call circuitCfg tenantKey toolName destination failed now st).2 := by
  unfold record_circuit_call
  split
  · simp
  · dsimp only
    split
    · split <;> simp
    · simp

theorem record_loop_outcome_no_retry (loopCfg : LoopCfg)
    (tenantKey fingerprint toolName outcomeHash : String) (now : Int)
    (st : List (String × LoopState)) :
    Ev.retry ∉ (record_loop_outcome loopCfg tenantKey fingerprint toolName outcomeHash now st).2 := by
  unfold record_loop_outcome
  dsimp only
  repeat' split
  all_goals simp

/-! ## C8 — fingerprints are independent of object key order -/

/-- C8: for every tool name and every two argument values that contain the
same key-value pairs but enumerate their object keys in different orders,
recursively at every nesting level (`KeyReorder`), and whose keys are
distinct as Python dictionaries guarantee (`WFJ`), the canonical
serializations and hence the computed fingerprints are equal. -/
theorem C8_fingerprint_key_order_independent (tool_name : String) (a b : JVal)
    (h : KeyReorder a b) (wa : WFJ a) (wb : WFJ b) :
    stable_stringify a = stable_stringify b ∧
      build_fingerprint tool_name (some a) = build_fingerprint tool_name (some b) := by
  have hs := keyReorder_stringify_aux (sizeOf a) a b le_rfl h wa wb
  exact ⟨hs, by simp [build_fingerprint, digest_stable, hs]⟩

/-- Witness for C8 at a two-level reordering of a concrete dictionary. -/
theorem C8_witness :
    stable_stringify
        (.obj (.cons "a" (.jnum 1)
          (.cons "b" (.obj (.cons "x" .jnull (.cons "y" (.jbool true) .nil))) .nil)))
      = stable_stringify
        (.obj (.cons "b" (.obj (.cons "y" (.jbool true) (.cons "x" .jnull .nil)))
          (.cons "a" (.jnum 1) .nil))) ∧
    build_fingerprint "lookup"
        (some (.obj (.cons "a" (.jnum 1)
          (.cons "b" (.obj (.cons "x" .jnull (.cons "y" (.jbool true) .nil))) .nil))))
      = build_fingerprint "lookup"
        (some (.obj (.cons "b" (.obj (.cons "y" (.jbool true) (.cons "x" .jnull .nil)))
          (.cons "a" (.jnum 1) .nil)))) := by
  have hinner : KeyReorder
      (.obj (.cons "x" .jnull (.cons "y" (.jbool true) .nil)))
      (.obj (.cons "y" (.jbool true) (.cons "x" .jnull .nil))) := by
    refine @KeyReorder.obj _ _ [("x", .jnull), ("y", .jbool true)] rfl ?_ ?_
    · exact List.Forall₂.cons KeyReorder.jnull
        (List.Forall₂.cons (KeyReorder.jbool true) List.Forall₂.nil)
    · exact (List.Perm.swap ("x", JVal.jnull) ("y", JVal.jbool true) []).symm
  have h : KeyReorder
      (.obj (.cons "a" (.jnum 1)
        (.cons "b" (.obj (.cons "x" .jnull (.cons "y" (.jbool true) .nil))) .nil)))
      (.obj (.cons "b" (.obj (.cons "y" (.jbool true) (.cons "x" .jnull .nil)))
        (.cons "a" (.jnum 1) .nil))) := by
    refine @KeyReorder.obj _ _
      [("a", .jnum 1),
        ("b", .obj (.cons "y" (.jbool true) (.cons "x" .jnull .nil)))] rfl ?_ ?_
    · exact List.Forall₂.cons (KeyReorder.jnum 1)
        (List.Forall₂.cons hinner List.Forall₂.nil)
    · exact (List.Perm.swap _ _ []).symm
  have wa : WFJ (.obj (.cons "a" (.jnum 1)
      (.cons "b" (.obj (.cons "x" .jnull (.cons "y" (.jbool true) .nil))) .nil))) := by
    refine WFJ.obj (by decide) ?_
    intro p hp
    simp only [JObj.toList, List.mem_cons, List.not_mem_nil, or_false] at hp
    rcases hp with hp | hp
    · subst hp; exact WFJ.jnum 1
    · subst hp
      refine WFJ.obj (by decide) ?_
      intro q hq
      simp only [JObj.toList, List.mem_cons, List.not_mem_nil, or_false] at hq
      rcases hq with hq | hq
      · subst hq; exact WFJ.jnull
      · subst hq; exact WFJ.jbool true
  have wb : WFJ (.obj (.cons "b" (.obj (.cons "y" (.jbool true) (.cons "x" .jnull .nil)))
      (.cons "a" (.jnum 1) .nil))) := by
    refine WFJ.obj (by decide) ?_
    intro p hp
    simp only [JObj.toList, List.mem_cons, List.not_mem_nil, or_false] at hp
    rcases hp with hp | hp
    · subst hp
      refine WFJ.obj (by decide) ?_
      intro q hq
      simp only [JObj.toList, List.mem_cons, List.not_mem_nil, or_false] at hq
      rcases hq with hq | hq
      · subst hq; exact WFJ.jbool true
      · subst hq; exact WFJ.jnull
    · subst hp; exact WFJ.jnum 1
  exact C8_fingerprint_key_order_independent "lookup" _ _ h wa wb

/-! ## Attempt-loop lemmas -/

/-- When no classifier is configured and the default decision refuses the
retry, the failure branch is terminal: it surfaces the (post-verifier)
normalized error, emits no `retry` event, invokes nothing further, and
leaves the lock and budget stores untouched. -/
theorem run_attempt_failure_terminal_of_no_retry (cfg : ResolvedConfig) (eff : EffCfg)
    (ctx : CallCtx) (env : RunEnv) (fingerprint : String) (now : Int) (attempt : Nat)
    (raw : RawError) (didTimeout : Bool) (phaseExecute : Bool) (acc : Acc)
    (hcl : cfg.retryClassifier = none)
    (hsr : should_retry_failure
        (apply_error_verifier cfg.verifiers ctx
          (normalize_failure raw didTimeout (env.sigPost attempt)
            (extract_status_code raw)) raw).2
        ((extract_status_code raw).orElse fun _ =>
          (apply_error_verifier cfg.verifiers ctx
            (normalize_failure raw didTimeout (env.sigPost attempt)
              (extract_status_code raw)) raw).2.statusCode)
        (env.sigPost attempt) = false) :
    ∃ acc',
      run_attempt_failure cfg eff ctx env fingerprint now attempt raw didTimeout
          phaseExecute acc
        = .terminal acc'
            (apply_error_verifier cfg.verifiers ctx
              (normalize_failure raw didTimeout (env.sigPost attempt)
                (extract_status_code raw)) raw).2
      ∧ (Ev.retry ∈ acc'.events → Ev.retry ∈ acc.events)
      ∧ acc'.execCount = acc.execCount
      ∧ acc'.stores.lock = acc.stores.lock
      ∧ acc'.stores.budget = acc.stores.budget := by
  simp only [run_attempt_failure, hcl, resolve_retry_decision, hsr, Bool.and_false,
    Bool.not_false, decide_eq_true_eq, Bool.false_eq_true, not_false_iff, if_true,
    Bool.not_eq_true]
  refine ⟨_, rfl, ?_, rfl, rfl, rfl⟩
  intro hmem
  simp only [List.mem_append] at hmem
  rcases hmem with ((hmem | hmem) | hmem) | hmem
  · exact hmem
  · exact absurd hmem (apply_error_verifier_no_retry _ _ _ _)
  · by_cases hp : phaseExecute = true
    · simp only [hp, if_true] at hmem
      exact absurd hmem (record_circuit_call_no_retry _ _ _ _ _ _ _)
    · simp [hp] at hmem
  · exact absurd hmem (record_loop_outcome_no_retry _ _ _ _ _ _ _)

theorem option_orElse_idem {A : Type} (x y : Option A) :
    ((x.orElse fun _ => y).orElse fun _ => y) = x.orElse fun _ => y := by
  cases x <;> cases y <;> rfl

theorem should_retry_failure_false_of_fatal (e : NormError) (status : Option Int)
    (cancelled : Bool) (hf : is_fatal_buildfunctions_code e.code = true)
    (hs : is_retryable_status (status.orElse fun _ => e.statusCode) = false) :
    should_retry_failure e status cancelled = false := by
  unfold should_retry_failure
  cases cancelled
  · simp [hs, hf]
  · simp

/-! ## C1 — fatal codes and the retry decision -/

/-- C1 counterexample: with no retry classifier configured, an executor
failure whose normalized code is the fatal `UNAUTHORIZED` but whose
extracted HTTP status is 503 IS retried: the run makes a second attempt and
emits a `retry` event, because `_should_retry_failure` tests the retryable
status before the fatal-code list. -/
theorem C1_counterexample :
    Ev.retry ∈ (run
        { retry := { maxAttempts := 2
                     initialDelayMs := 0
                     maxDelayMs := 0
                     backoffFactor := flt_of_int 1
                     jitterRatio := { num := 0, den := 1 } } }
        { toolName := "t" }
        { exec := fun _ => .raiseErr { message := "auth failed", code := some "UNAUTHORIZED", status_code := some 503 } }
        0 {}).events
    ∧ (run
        { retry := { maxAttempts := 2
                     initialDelayMs := 0
                     maxDelayMs := 0
                     backoffFactor := flt_of_int 1
                     jitterRatio := { num := 0, den := 1 } } }
        { toolName := "t" }
        { exec := fun _ => .raiseErr { message := "auth failed", code := some "UNAUTHORIZED", status_code := some 503 } }
        0 {}).execCount = 2 := by
  constructor
  · decide
  · rfl

/-- C1 (amended): for every failure handled by the attempt loop with no
custom retry classifier configured, if the post-normalization error code is
one of the fatal codes AND neither the extracted status code nor the
error's stored status code is 408/429/>=500, the failure is never retried:
the loop terminates at this attempt with that error, makes no further
attempt, and emits no retry event.  (The original claim's "regardless of
any extracted HTTP status code" is false: a fatal code with a retryable
extracted status is retried, see the counterexample.) -/
theorem C1_fatal_code_not_retried (cfg : ResolvedConfig) (eff : EffCfg) (ctx : CallCtx)
    (env : RunEnv) (fingerprint : String) (now : Int) (remaining attempt : Nat)
    (acc : Acc) (raw : RawError)
    (hcl : cfg.retryClassifier = none)
    (hcirc : enforce_circuit_before_call eff.circuitBreaker cfg.tenantKey ctx.toolName
      ctx.destination now acc.stores.circuit = none)
    (hpre : env.sigPre attempt = false)
    (hexec : env.exec attempt = .raiseErr raw)
    (hfatal : is_fatal_buildfunctions_code
      (apply_error_verifier cfg.verifiers ctx
        (normalize_failure raw false (env.sigPost attempt) (extract_status_code raw))
        raw).2.code = true)
    (hstat : is_retryable_status ((extract_status_code raw).orElse fun _ =>
      (apply_error_verifier cfg.verifiers ctx
        (normalize_failure raw false (env.sigPost attempt) (extract_status_code raw))
        raw).2.statusCode) = false) :
    ∃ acc',
      attempt_loop cfg eff ctx env fingerprint now (remaining + 1) attempt acc
        = (acc', .error (apply_error_verifier cfg.verifiers ctx
            (normalize_failure raw false (env.sigPost attempt) (extract_status_code raw))
            raw).2)
      ∧ (Ev.retry ∈ acc'.events → Ev.retry ∈ acc.events)
      ∧ acc'.execCount = acc.execCount + 1 := by
  have hsr : should_retry_failure
      (apply_error_verifier cfg.verifiers ctx
        (normalize_failure raw false (env.sigPost attempt) (extract_status_code raw))
        raw).2
      ((extract_status_code raw).orElse fun _ =>
        (apply_error_verifier cfg.verifiers ctx
          (normalize_failure raw false (env.sigPost attempt) (extract_status_code raw))
          raw).2.statusCode)
      (env.sigPost attempt) = false :=
    should_retry_failure_false_of_fatal _ _ _ hfatal
      (by rw [option_orElse_idem]; exact hstat)
  obtain ⟨acc', heq, hret, hexe, _, _⟩ :=
    run_attempt_failure_terminal_of_no_retry cfg eff ctx env fingerprint now attempt raw
      false true { acc with execCount := acc.execCount + 1 } hcl hsr
  refine ⟨acc', ?_, hret, by rw [hexe]⟩
  simp only [attempt_loop, hcirc, run_one_attempt, hpre, Bool.false_eq_true, if_false,
    hexec]
  rw [heq]

/-- Witness for the amended C1 at a concrete fatal failure
(`VALIDATION_ERROR` with status 400). -/
theorem C1_fatal_witness :
    ∃ acc',
      attempt_loop {} { timeoutMs := 0, retry := DEFAULT_RETRY, loopBreaker := DEFAULT_LOOP_BREAKER, circuitBreaker := DEFAULT_CIRCUIT_BREAKER }
        { toolName := "t" }
        { exec := fun _ => .raiseErr { message := "bad", code := some "VALIDATION_ERROR", status_code := some 400 } }
        "fp" 0 4 1 { stores := {}, events := [], execCount := 0 }
        = (acc', .error (apply_error_verifier {} { toolName := "t" }
            (normalize_failure
              { message := "bad", code := some "VALIDATION_ERROR", status_code := some 400 }
              false false
              (extract_status_code { message := "bad", code := some "VALIDATION_ERROR", status_code := some 400 }))
            { message := "bad", code := some "VALIDATION_ERROR", status_code := some 400 }).2)
      ∧ (Ev.retry ∈ acc'.events → Ev.retry ∈ ([] : List Ev))
      ∧ acc'.execCount = 0 + 1 :=
  C1_fatal_code_not_retried {} { timeoutMs := 0, retry := DEFAULT_RETRY, loopBreaker := DEFAULT_LOOP_BREAKER, circuitBreaker := DEFAULT_CIRCUIT_BREAKER }
    { toolName := "t" }
    { exec := fun _ => .raiseErr { message := "bad", code := some "VALIDATION_ERROR", status_code := some 400 } }
    "fp" 0 3 1 { stores := {}, events := [], execCount := 0 }
    { message := "bad", code := some "VALIDATION_ERROR", status_code := some 400 }
    rfl rfl rfl rfl (by decide) (by decide)

theorem enforce_success_verifier_no_retry (verifiers : VerifierCfg) (ctx : CallCtx)
    (result : JVal) :
    Ev.retry ∉ (enforce_success_verifier verifiers ctx result).1 := by
  unfold enforce_success_verifier
  cases verifiers.afterSuccess with
  | none => simp
  | some verifier =>
      by_cases h : (normalize_verifier_decision (verifier ctx result)).allow <;> simp [h]

/-- The failure branch never returns `.success` and never touches the
execution counter. -/
theorem run_attempt_failure_shape (cfg : ResolvedConfig) (eff : EffCfg) (ctx : CallCtx)
    (env : RunEnv) (fingerprint : String) (now : Int) (attempt : Nat) (raw : RawError)
    (didTimeout : Bool) (phaseExecute : Bool) (acc : Acc) :
    (∀ a e, run_attempt_failure cfg eff ctx env fingerprint now attempt raw didTimeout
        phaseExecute acc = .terminal a e → a.execCount = acc.execCount)
    ∧ (∀ a, run_attempt_failure cfg eff ctx env fingerprint now attempt raw didTimeout
        phaseExecute acc = .again a → a.execCount = acc.execCount)
    ∧ (∀ a v, run_attempt_failure cfg eff ctx env fingerprint now attempt raw didTimeout
        phaseExecute acc = .success a v → False) := by
  unfold run_attempt_failure
  dsimp only
  refine ⟨?_, ?_, ?_⟩
  · intro a e h
    split at h
    · cases h; rfl
    · split at h
      · cases h
      · split at h
        · cases h; rfl
        · cases h
  · intro a h
    split at h
    · cases h
    · split at h
      · cases h; rfl
      · split at h
        · cases h
        · cases h; rfl
  · intro a v h
    split at h
    · cases h
    · split at h
      · cases h
      · split at h
        · cases h
        · cases h

/-- While the caller's signal is observed aborted before each attempt, the
race raises before ever invoking the executor, whatever the classifier. -/
theorem attempt_loop_no_exec_of_pre_aborted (cfg : ResolvedConfig) (eff : EffCfg)
    (ctx : CallCtx) (env : RunEnv) (fingerprint : String) (now : Int) :
    ∀ (remaining attempt : Nat) (acc : Acc), (∀ m, attempt ≤ m → env.sigPre m = true) →
      (attempt_loop cfg eff ctx env fingerprint now remaining attempt acc).1.execCount
        = acc.execCount := by
  intro remaining
  induction remaining with
  | zero => intro attempt acc _; rfl
  | succ k ih =>
      intro attempt acc h
      simp only [attempt_loop]
      cases hc : enforce_circuit_before_call eff.circuitBreaker cfg.tenantKey ctx.toolName
        ctx.destination now acc.stores.circuit with
      | some e => rfl
      | none =>
          simp only [run_one_attempt, h attempt le_rfl, if_true]
          obtain ⟨hterm, hagain, hsucc⟩ := run_attempt_failure_shape cfg eff ctx env
            fingerprint now attempt { message := "aborted" } false true acc
          cases hres : run_attempt_failure cfg eff ctx env fingerprint now attempt
            { message := "aborted" } false true acc with
          | terminal a e => exact hterm a e hres
          | success a v => exact absurd hres (fun hres => hsucc a v hres)
          | again a =>
              rw [ih (attempt + 1) a (fun m hm => h m (by omega))]
              exact hagain a hres

/-! ## C6 — caller cancellation and retries -/

/-- C6 counterexample: with a custom retry classifier that always returns
retryable, a run whose caller signal is aborted throughout still emits a
`retry` event (the classifier's decision overrides the cancellation-aware
default), refuting "no retry event is emitted for that run".  The executor
is nevertheless never invoked (execCount = 0). -/
theorem C6_counterexample :
    Ev.retry ∈ (run
        { retry := { maxAttempts := 2
                     initialDelayMs := 0
                     maxDelayMs := 0
                     backoffFactor := flt_of_int 1
                     jitterRatio := { num := 0, den := 1 } }
          retryClassifier := some (fun _ => .cbool true) }
        { toolName := "t" }
        { exec := fun _ => .raiseErr { message := "boom" }
          sigPre := fun _ => true
          sigPost := fun _ => true }
        0 {}).events
    ∧ (run
        { retry := { maxAttempts := 2
                     initialDelayMs := 0
                     maxDelayMs := 0
                     backoffFactor := flt_of_int 1
                     jitterRatio := { num := 0, den := 1 } }
          retryClassifier := some (fun _ => .cbool true) }
        { toolName := "t" }
        { exec := fun _ => .raiseErr { message := "boom" }
          sigPre := fun _ => true
          sigPost := fun _ => true }
        0 {}).execCount = 0 := by
  constructor
  · decide
  · rfl

/-- C6 (amended): a caller-cancelled attempt never re-invokes the executor
— when the signal is aborted before each remaining attempt, the race raises
before calling it, whatever the classifier; and with no custom retry
classifier a failure observed while the caller's signal is aborted is
terminal, emitting no retry event.  (A custom classifier returning
retryable can still force retry events, see the counterexample.) -/
theorem C6_cancelled_no_retry :
    (∀ (cfg : ResolvedConfig) (eff : EffCfg) (ctx : CallCtx) (env : RunEnv)
        (fingerprint : String) (now : Int) (remaining attempt : Nat) (acc : Acc),
      (∀ m, attempt ≤ m → env.sigPre m = true) →
      (attempt_loop cfg eff ctx env fingerprint now remaining attempt acc).1.execCount
        = acc.execCount)
    ∧ (∀ (cfg : ResolvedConfig) (eff : EffCfg) (ctx : CallCtx) (env : RunEnv)
        (fingerprint : String) (now : Int) (remaining attempt : Nat) (acc : Acc),
      cfg.retryClassifier = none →
      env.sigPost attempt = true →
      (env.sigPre attempt = true ∨ (∃ e, env.exec attempt = .raiseErr e)
        ∨ env.exec attempt = .timeout) →
      ∃ acc' e,
        attempt_loop cfg eff ctx env fingerprint now (remaining + 1) attempt acc
          = (acc', .error e)
        ∧ (Ev.retry ∈ acc'.events → Ev.retry ∈ acc.events)
        ∧ acc'.execCount ≤ acc.execCount + 1) := by
  constructor
  · exact fun cfg eff ctx env fp now remaining attempt acc h =>
      attempt_loop_no_exec_of_pre_aborted cfg eff ctx env fp now remaining attempt acc h
  · intro cfg eff ctx env fingerprint now remaining attempt acc hcl hpost hfail
    have hsr : ∀ (raw : RawError) (didTimeout : Bool), should_retry_failure
        (apply_error_verifier cfg.verifiers ctx
          (normalize_failure raw didTimeout (env.sigPost attempt)
            (extract_status_code raw)) raw).2
        ((extract_status_code raw).orElse fun _ =>
          (apply_error_verifier cfg.verifiers ctx
            (normalize_failure raw didTimeout (env.sigPost attempt)
              (extract_status_code raw)) raw).2.statusCode)
        (env.sigPost attempt) = false := by
      intro raw didTimeout
      rw [hpost]
      unfold should_retry_failure
      simp
    cases hc : enforce_circuit_before_call eff.circuitBreaker cfg.tenantKey ctx.toolName
      ctx.destination now acc.stores.circuit with
    | some e =>
        refine ⟨acc, e, ?_, fun h => h, by omega⟩
        simp only [attempt_loop, hc]
    | none =>
        cases hp : env.sigPre attempt with
        | true =>
            obtain ⟨acc', heq, hret, hexe, _, _⟩ :=
              run_attempt_failure_terminal_of_no_retry cfg eff ctx env fingerprint now
                attempt { message := "aborted" } false true acc hcl
                (hsr { message := "aborted" } false)
            have hloop : attempt_loop cfg eff ctx env fingerprint now (remaining + 1)
                attempt acc = (acc', .error
                  (apply_error_verifier cfg.verifiers ctx
                    (normalize_failure { message := "aborted" } false (env.sigPost attempt)
                      (extract_status_code { message := "aborted" }))
                    { message := "aborted" }).2) := by
              simp only [attempt_loop, hc, run_one_attempt, hp, if_true]
              rw [heq]
            exact ⟨acc', _, hloop, hret, by omega⟩
        | false =>
            rcases hfail with hpre | ⟨eraw, hexec⟩ | hexec
            · rw [hp] at hpre
              cases hpre
            · obtain ⟨acc', heq, hret, hexe, _, _⟩ :=
                run_attempt_failure_terminal_of_no_retry cfg eff ctx env fingerprint now
                  attempt eraw false true { acc with execCount := acc.execCount + 1 } hcl
                  (hsr eraw false)
              have hloop : attempt_loop cfg eff ctx env fingerprint now (remaining + 1)
                  attempt acc = (acc', .error
                    (apply_error_verifier cfg.verifiers ctx
                      (normalize_failure eraw false (env.sigPost attempt)
                        (extract_status_code eraw)) eraw).2) := by
                simp only [attempt_loop, hc, run_one_attempt, hp, Bool.false_eq_true,
                  if_false, hexec]
                rw [heq]
              exact ⟨acc', _, hloop, hret, by rw [hexe]⟩
            · obtain ⟨acc', heq, hret, hexe, _, _⟩ :=
                run_attempt_failure_terminal_of_no_retry cfg eff ctx env fingerprint now
                  attempt { message := "aborted" } true true
                  { acc with execCount := acc.execCount + 1 } hcl
                  (hsr { message := "aborted" } true)
              have hloop : attempt_loop cfg eff ctx env fingerprint now (remaining + 1)
                  attempt acc = (acc', .error
                    (apply_error_verifier cfg.verifiers ctx
                      (normalize_failure { message := "aborted" } true (env.sigPost attempt)
                        (extract_status_code { message := "aborted" }))
                      { message := "aborted" }).2) := by
                simp only [attempt_loop, hc, run_one_attempt, hp, Bool.false_eq_true,
                  if_false, hexec]
                rw [heq]
              exact ⟨acc', _, hloop, hret, by rw [hexe]⟩

/-- Witness for the amended C6: a cancelled failing attempt with no
classifier is terminal with no retry event and at most one execution. -/
theorem C6_cancelled_witness :
    ∃ acc' e,
      attempt_loop {} { timeoutMs := 0, retry := DEFAULT_RETRY, loopBreaker := DEFAULT_LOOP_BREAKER, circuitBreaker := DEFAULT_CIRCUIT_BREAKER }
        { toolName := "t" }
        { exec := fun _ => .raiseErr { message := "boom" }, sigPost := fun _ => true }
        "fp" 0 (0 + 1) 1 { stores := {}, events := [], execCount := 0 }
        = (acc', .error e)
      ∧ (Ev.retry ∈ acc'.events → Ev.retry ∈ (({ stores := {}, events := [], execCount := 0 } : Acc)).events)
      ∧ acc'.execCount ≤ ({ stores := {}, events := [], execCount := 0 } : Acc).execCount + 1 :=
  C6_cancelled_no_retry.2 {} { timeoutMs := 0, retry := DEFAULT_RETRY, loopBreaker := DEFAULT_LOOP_BREAKER, circuitBreaker := DEFAULT_CIRCUIT_BREAKER }
    { toolName := "t" }
    { exec := fun _ => .raiseErr { message := "boom" }, sigPost := fun _ => true }
    "fp" 0 0 1 { stores := {}, events := [], execCount := 0 }
    rfl rfl (Or.inr (Or.inl ⟨{ message := "boom" }, rfl⟩))

/-! ## C2 — idempotency replay precedes the side-effecting gates -/

/-- C2 counterexample: with a deny-all policy rule, a run that satisfies
all of the claim's premises (idempotency enabled, non-empty key, non-expired
record present) does not return the stored result — the policy gate throws
first.  The claim as stated is therefore false; the replay-before-budget
property needs the policy and before-verifier gates to pass. -/
theorem C2_counterexample :
    (run
        { policy := { enabled := true, mode := .enforce, rules := [{ action := .deny, tools := some ["*"] }], approvalHandler := none } }
        { toolName := "t", idempotencyKey := some "k" }
        { exec := fun _ => .ok .jnull }
        0
        { idem := [("default:idempotency:default:t:" ++ digest_stable (.jstr "k"),
            { ok := true, result := .jstr "cached" })] }).result
      = .error { message := "Policy denied tool call: Policy blocked tool call", code := "UNAUTHORIZED", statusCode := some 403 }
    ∧ get_idempotency_state_key {} "default" { toolName := "t", idempotencyKey := some "k" }
        = some ("default:idempotency:default:t:" ++ digest_stable (.jstr "k")) := by
  constructor
  · rfl
  · rfl

/-- C2 (amended): for every run where idempotency is enabled, the context
carries a non-empty idempotency key, a non-expired record exists for the
computed state key, and additionally the policy gate and before-call
verifier admit the call, `run` replays: the executor is never invoked, the
budget, loop, lock and idempotency stores are untouched, the
`idempotency_replay` event is emitted, and the stored result is returned
(or the stored error re-thrown). -/
theorem C2_idempotency_replay_frame (cfg : ResolvedConfig) (ctx : CallCtx) (env : RunEnv)
    (now : Int) (st : Stores) (sk : String) (rec : IdemRecord)
    (hname : ¬ ctx.toolName = "")
    (hpol : (enforce_policy cfg.policy ctx).2 = none)
    (hver : (enforce_before_verifier cfg.verifiers ctx).2 = none)
    (hkey : get_idempotency_state_key cfg.idempotency cfg.tenantKey ctx = some sk)
    (hrec : sget st.idem sk = some rec)
    (hexp : ∀ e, rec.expiresAt = some e → now < e) :
    (run cfg ctx env now st).execCount = 0
    ∧ (run cfg ctx env now st).stores.budget = st.budget
    ∧ (run cfg ctx env now st).stores.loop = st.loop
    ∧ (run cfg ctx env now st).stores.lock = st.lock
    ∧ (run cfg ctx env now st).stores.idem = st.idem
    ∧ Ev.idempotency_replay ∈ (run cfg ctx env now st).events
    ∧ (rec.ok = true → (run cfg ctx env now st).result = .ok rec.result)
    ∧ (rec.ok = false → (run cfg ctx env now st).result = .error
        (match rec.error with
          | some err => make_failure err.message err.code err.statusCode
          | none => make_failure "Replayed idempotent tool error" "UNKNOWN_ERROR")) := by
  have hread : read_idempotency_record cfg.idempotency cfg.tenantKey ctx now st.idem
      = (st.idem, some rec) := by
    unfold read_idempotency_record
    simp only [hkey, hrec]
    cases hre : rec.expiresAt with
    | none => rfl
    | some e =>
        have := hexp e hre
        dsimp only
        rw [if_neg (by omega)]
  cases hok : rec.ok with
  | true =>
      have hreplay : try_replay_idempotency cfg.idempotency cfg.tenantKey ctx now st.idem
          = (st.idem, [Ev.idempotency_replay], .hit rec.result) := by
        unfold try_replay_idempotency
        simp only [hkey, hread]
        simp [hok]
      have hrun : run cfg ctx env now st
          = { stores := st
              events := (enforce_policy cfg.policy ctx).1
                ++ (enforce_before_verifier cfg.verifiers ctx).1
                ++ [Ev.idempotency_replay]
              execCount := 0
              result := .ok rec.result } := by
        unfold run
        rw [if_neg hname]
        simp only [hpol, hver, hreplay]
      rw [hrun]
      exact ⟨rfl, rfl, rfl, rfl, rfl, by simp, fun _ => rfl, fun h => by simp at h⟩
  | false =>
      cases her : rec.error with
      | some err =>
          have hreplay : try_replay_idempotency cfg.idempotency cfg.tenantKey ctx now st.idem
              = (st.idem, [Ev.idempotency_replay],
                .raiseErr (make_failure err.message err.code err.statusCode)) := by
            unfold try_replay_idempotency
            simp only [hkey, hread]
            simp [hok, her]
          have hrun : run cfg ctx env now st
              = { stores := st
                  events := (enforce_policy cfg.policy ctx).1
                    ++ (enforce_before_verifier cfg.verifiers ctx).1
                    ++ [Ev.idempotency_replay]
                  execCount := 0
                  result := .error (make_failure err.message err.code err.statusCode) } := by
            unfold run
            rw [if_neg hname]
            simp only [hpol, hver, hreplay]
          rw [hrun]
          exact ⟨rfl, rfl, rfl, rfl, rfl, by simp, fun h => by simp at h, fun _ => rfl⟩
      | none =>
          have hreplay : try_replay_idempotency cfg.idempotency cfg.tenantKey ctx now st.idem
              = (st.idem, [Ev.idempotency_replay],
                .raiseErr (make_failure "Replayed idempotent tool error" "UNKNOWN_ERROR")) := by
            unfold try_replay_idempotency
            simp only [hkey, hread]
            simp [hok, her]
          have hrun : run cfg ctx env now st
              = { stores := st
                  events := (enforce_policy cfg.policy ctx).1
                    ++ (enforce_before_verifier cfg.verifiers ctx).1
                    ++ [Ev.idempotency_replay]
                  execCount := 0
                  result := .error
                    (make_failure "Replayed idempotent tool error" "UNKNOWN_ERROR") } := by
            unfold run
            rw [if_neg hname]
            simp only [hpol, hver, hreplay]
          rw [hrun]
          exact ⟨rfl, rfl, rfl, rfl, rfl, by simp, fun h => by simp at h, fun _ => rfl⟩

/-- Witness for the amended C2: a stored success is replayed without
touching any other store. -/
theorem C2_replay_witness :
    (run {} { toolName := "t", idempotencyKey := some "k" } { exec := fun _ => .ok .jnull } 0
        { idem := [("default:idempotency:default:t:" ++ digest_stable (.jstr "k"), { ok := true, result := .jstr "v" })] }).execCount = 0
    ∧ (run {} { toolName := "t", idempotencyKey := some "k" } { exec := fun _ => .ok .jnull } 0
        { idem := [("default:idempotency:default:t:" ++ digest_stable (.jstr "k"), { ok := true, result := .jstr "v" })] }).stores.budget = ({ idem := [("default:idempotency:default:t:" ++ digest_stable (.jstr "k"), { ok := true, result := .jstr "v" })] } : Stores).budget
    ∧ (run {} { toolName := "t", idempotencyKey := some "k" } { exec := fun _ => .ok .jnull } 0
        { idem := [("default:idempotency:default:t:" ++ digest_stable (.jstr "k"), { ok := true, result := .jstr "v" })] }).stores.loop = ({ idem := [("default:idempotency:default:t:" ++ digest_stable (.jstr "k"), { ok := true, result := .jstr "v" })] } : Stores).loop
    ∧ (run {} { toolName := "t", idempotencyKey := some "k" } { exec := fun _ => .ok .jnull } 0
        { idem := [("default:idempotency:default:t:" ++ digest_stable (.jstr "k"), { ok := true, result := .jstr "v" })] }).stores.lock = ({ idem := [("default:idempotency:default:t:" ++ digest_stable (.jstr "k"), { ok := true, result := .jstr "v" })] } : Stores).lock
    ∧ (run {} { toolName := "t", idempotencyKey := some "k" } { exec := fun _ => .ok .jnull } 0
        { idem := [("default:idempotency:default:t:" ++ digest_stable (.jstr "k"), { ok := true, result := .jstr "v" })] }).stores.idem = ({ idem := [("default:idempotency:default:t:" ++ digest_stable (.jstr "k"), { ok := true, result := .jstr "v" })] } : Stores).idem
    ∧ Ev.idempotency_replay ∈ (run {} { toolName := "t", idempotencyKey := some "k" } { exec := fun _ => .ok .jnull } 0
        { idem := [("default:idempotency:default:t:" ++ digest_stable (.jstr "k"), { ok := true, result := .jstr "v" })] }).events
    ∧ (({ ok := true, result := .jstr "v" } : IdemRecord).ok = true →
        (run {} { toolName := "t", idempotencyKey := some "k" } { exec := fun _ => .ok .jnull } 0
          { idem := [("default:idempotency:default:t:" ++ digest_stable (.jstr "k"), { ok := true, result := .jstr "v" })] }).result = .ok ({ ok := true, result := .jstr "v" } : IdemRecord).result)
    ∧ (({ ok := true, result := .jstr "v" } : IdemRecord).ok = false →
        (run {} { toolName := "t", idempotencyKey := some "k" } { exec := fun _ => .ok .jnull } 0
          { idem := [("default:idempotency:default:t:" ++ digest_stable (.jstr "k"), { ok := true, result := .jstr "v" })] }).result = .error
          (match ({ ok := true, result := .jstr "v" } : IdemRecord).error with
            | some err => make_failure err.message err.code err.statusCode
            | none => make_failure "Replayed idempotent tool error" "UNKNOWN_ERROR")) :=
  C2_idempotency_replay_frame {} { toolName := "t", idempotencyKey := some "k" }
    { exec := fun _ => .ok .jnull } 0
    { idem := [("default:idempotency:default:t:" ++ digest_stable (.jstr "k"), { ok := true, result := .jstr "v" })] }
    ("default:idempotency:default:t:" ++ digest_stable (.jstr "k"))
    { ok := true, result := .jstr "v" }
    (by decide) rfl rfl rfl rfl (fun e h => nomatch h)

/-! ## C4 — lock release on every exit path -/

theorem run_attempt_failure_lock (cfg : ResolvedConfig) (eff : EffCfg) (ctx : CallCtx)
    (env : RunEnv) (fingerprint : String) (now : Int) (attempt : Nat) (raw : RawError)
    (didTimeout : Bool) (phaseExecute : Bool) (acc : Acc) :
    (∀ a e, run_attempt_failure cfg eff ctx env fingerprint now attempt raw didTimeout
        phaseExecute acc = .terminal a e → a.stores.lock = acc.stores.lock)
    ∧ (∀ a, run_attempt_failure cfg eff ctx env fingerprint now attempt raw didTimeout
        phaseExecute acc = .again a → a.stores.lock = acc.stores.lock) := by
  unfold run_attempt_failure
  dsimp only
  constructor
  · intro a e h
    split at h
    · cases h; rfl
    · split at h
      · cases h
      · split at h
        · cases h; rfl
        · cases h
  · intro a h
    split at h
    · cases h
    · split at h
      · cases h; rfl
      · split at h
        · cases h
        · cases h; rfl

theorem run_one_attempt_lock (cfg : ResolvedConfig) (eff : EffCfg) (ctx : CallCtx)
    (env : RunEnv) (fingerprint : String) (now : Int) (attempt : Nat) (acc : Acc) :
    (∀ a v, run_one_attempt cfg eff ctx env fingerprint now attempt acc = .success a v →
      a.stores.lock = acc.stores.lock)
    ∧ (∀ a e, run_one_attempt cfg eff ctx env fingerprint now attempt acc = .terminal a e →
      a.stores.lock = acc.stores.lock)
    ∧ (∀ a, run_one_attempt cfg eff ctx env fingerprint now attempt acc = .again a →
      a.stores.lock = acc.stores.lock) := by
  unfold run_one_attempt
  refine ⟨?_, ?_, ?_⟩
  · intro a v h
    split at h
    · exact ((run_attempt_failure_shape cfg eff ctx env fingerprint now attempt
        { message := "aborted" } false true acc).2.2 a v h).elim
    · split at h
      · exact ((run_attempt_failure_shape cfg eff ctx env fingerprint now attempt
          _ false true _).2.2 a v h).elim
      · exact ((run_attempt_failure_shape cfg eff ctx env fingerprint now attempt
          _ true true _).2.2 a v h).elim
      · dsimp only at h
        split at h
        · exact ((run_attempt_failure_shape cfg eff ctx env fingerprint now attempt
            _ false false _).2.2 a v h).elim
        · cases h
          rfl
  · intro a e h
    split at h
    · exact (run_attempt_failure_lock cfg eff ctx env fingerprint now attempt
        { message := "aborted" } false true acc).1 a e h
    · split at h
      · have hx := (run_attempt_failure_lock cfg eff ctx env fingerprint now attempt
          _ false true _).1 a e h
        exact hx
      · have hx := (run_attempt_failure_lock cfg eff ctx env fingerprint now attempt
          _ true true _).1 a e h
        exact hx
      · dsimp only at h
        split at h
        · have hx := (run_attempt_failure_lock cfg eff ctx env fingerprint now attempt
            _ false false _).1 a e h
          exact hx
        · cases h
  · intro a h
    split at h
    · exact (run_attempt_failure_lock cfg eff ctx env fingerprint now attempt
        { message := "aborted" } false true acc).2 a h
    · split at h
      · have hx := (run_attempt_failure_lock cfg eff ctx env fingerprint now attempt
          _ false true _).2 a h
        exact hx
      · have hx := (run_attempt_failure_lock cfg eff ctx env fingerprint now attempt
          _ true true _).2 a h
        exact hx
      · dsimp only at h
        split at h
        · have hx := (run_attempt_failure_lock cfg eff ctx env fingerprint now attempt
            _ false false _).2 a h
          exact hx
        · cases h

theorem attempt_loop_lock_frame (cfg : ResolvedConfig) (eff : EffCfg) (ctx : CallCtx)
    (env : RunEnv) (fingerprint : String) (now : Int) :
    ∀ (remaining attempt : Nat) (acc : Acc),
      (attempt_loop cfg eff ctx env fingerprint now remaining attempt acc).1.stores.lock
        = acc.stores.lock := by
  intro remaining
  induction remaining with
  | zero => intro attempt acc; rfl
  | succ k ih =>
      intro attempt acc
      simp only [attempt_loop]
      cases hc : enforce_circuit_before_call eff.circuitBreaker cfg.tenantKey ctx.toolName
        ctx.destination now acc.stores.circuit with
      | some e => rfl
      | none =>
          obtain ⟨hsucc, hterm, hagain⟩ := run_one_attempt_lock cfg eff ctx env fingerprint
            now attempt acc
          cases hres : run_one_attempt cfg eff ctx env fingerprint now attempt acc with
          | success a v => exact hsucc a v hres
          | terminal a e => exact hterm a e hres
          | again a => rw [ih (attempt + 1) a]; exact hagain a hres

theorem acquire_resource_lock_owner (conc : ConcCfg) (tenantKey : String) (ctx : CallCtx)
    (ownerToken : String) (minLease : Int) (aborted : Bool) (now : Int)
    (st lockStore : List (String × LockState)) (evs : List Ev) (ref : LockRef)
    (h : acquire_resource_lock conc tenantKey ctx ownerToken minLease aborted now st
      = (lockStore, evs, .ok (some ref))) :
    sget lockStore ref.key
      = some { owner := ref.owner, expiresAt := now + max conc.leaseMs minLease }
    ∧ ref.owner = ownerToken := by
  unfold acquire_resource_lock at h
  split at h
  · cases h
  · split at h
    · cases h
    · dsimp only at h
      split at h
      · cases h
      · split at h
        · cases h
          constructor
          · exact sget_sset_self _ _ _
          · rfl
        · split at h
          · cases h
          · split at h
            · cases h
            · split at h
              · cases h
              · cases h

theorem release_resource_lock_deletes (ref : LockRef) (st : List (String × LockState))
    (rec : LockState) (h : sget st ref.key = some rec) (howner : rec.owner = ref.owner) :
    sget (release_resource_lock (some ref) st) ref.key = none := by
  unfold release_resource_lock
  simp only [h]
  rw [if_neg (by simp [howner])]
  exact sget_sdel_self _ _

/-- C4: every run that acquires a resource lock releases it on every exit
path of the attempt loop — the acquirer's record is gone from the final
lock store — and release deletes only when the stored owner still equals
the acquirer's token: with a different stored owner the store is left
unchanged. -/
theorem C4_lock_released_on_every_path (cfg : ResolvedConfig) (ctx : CallCtx)
    (env : RunEnv) (now : Int) (st : Stores)
    (lockStore1 : List (String × LockState)) (aevs : List Ev) (ref : LockRef)
    (hname : ¬ ctx.toolName = "")
    (hpol : (enforce_policy cfg.policy ctx).2 = none)
    (hver : (enforce_before_verifier cfg.verifiers ctx).2 = none)
    (hmiss : (try_replay_idempotency cfg.idempotency cfg.tenantKey ctx now st.idem).2.2
      = ReplayOut.miss)
    (hbud : (enforce_run_budget cfg.maxToolCalls cfg.tenantKey ctx st.budget).2.2 = none)
    (hloop : (enforce_loop_before_call
      (resolve_effective_call_config cfg.timeoutMs cfg.retry cfg.loopBreaker
        cfg.circuitBreaker cfg.overridesTools cfg.overridesDests ctx).loopBreaker
      cfg.tenantKey (build_fingerprint ctx.toolName ctx.args) now st.loop).2 = none)
    (hacq : acquire_resource_lock cfg.concurrency cfg.tenantKey ctx env.ownerToken
      (if (resolve_effective_call_config cfg.timeoutMs cfg.retry cfg.loopBreaker
          cfg.circuitBreaker cfg.overridesTools cfg.overridesDests ctx).timeoutMs > 0
        then (resolve_effective_call_config cfg.timeoutMs cfg.retry cfg.loopBreaker
          cfg.circuitBreaker cfg.overridesTools cfg.overridesDests ctx).timeoutMs + 1000
        else cfg.concurrency.leaseMs)
      (env.sigPre 1) now st.lock = (lockStore1, aevs, .ok (some ref))) :
    sget (run cfg ctx env now st).stores.lock ref.key = none
    ∧ (∀ (ref' : LockRef) (store : List (String × LockState)) (rec : LockState),
        sget store ref'.key = some rec → rec.owner ≠ ref'.owner →
        release_resource_lock (some ref') store = store) := by
  constructor
  · have howner := acquire_resource_lock_owner _ _ _ _ _ _ _ _ _ _ _ hacq
    have hrun : (run cfg ctx env now st).stores.lock
        = release_resource_lock (some ref)
          (attempt_loop cfg ((resolve_effective_call_config cfg.timeoutMs cfg.retry
              cfg.loopBreaker cfg.circuitBreaker cfg.overridesTools cfg.overridesDests ctx))
            ctx env (build_fingerprint ctx.toolName ctx.args) now
            (resolve_effective_call_config cfg.timeoutMs cfg.retry cfg.loopBreaker
              cfg.circuitBreaker cfg.overridesTools cfg.overridesDests ctx).retry.maxAttempts
            1
            { stores :=
                { loop := (enforce_loop_before_call
                    (resolve_effective_call_config cfg.timeoutMs cfg.retry cfg.loopBreaker
                      cfg.circuitBreaker cfg.overridesTools cfg.overridesDests ctx).loopBreaker
                    cfg.tenantKey (build_fingerprint ctx.toolName ctx.args) now st.loop).1
                  circuit := st.circuit
                  budget := (enforce_run_budget cfg.maxToolCalls cfg.tenantKey ctx
                    st.budget).1
                  lock := lockStore1
                  idem := (try_replay_idempotency cfg.idempotency cfg.tenantKey ctx now
                    st.idem).1 }
              events := (enforce_policy cfg.policy ctx).1
                ++ (enforce_before_verifier cfg.verifiers ctx).1
                ++ (try_replay_idempotency cfg.idempotency cfg.tenantKey ctx now st.idem).2.1
                ++ (enforce_run_budget cfg.maxToolCalls cfg.tenantKey ctx st.budget).2.1
                ++ aevs
              execCount := 0 }).1.stores.lock := by
      unfold run
      rw [if_neg hname]
      simp only [hpol, hver, hmiss, hbud, hloop, hacq]
    rw [hrun]
    rw [attempt_loop_lock_frame]
    exact release_resource_lock_deletes ref lockStore1 _ howner.1 rfl
  · intro ref' store rec h hne
    unfold release_resource_lock
    simp only [h]
    rw [if_pos hne]

theorem C4_witness :
    sget (run { concurrency := { enabled := true } }
        { toolName := "t", resourceKey := some "r" }
        { exec := fun _ => .ok .jnull } 0 {}).stores.lock
      ("default:lock:" ++ digest_stable (.jstr "r")) = none
    ∧ (∀ (ref' : LockRef) (store : List (String × LockState)) (rec : LockState),
        sget store ref'.key = some rec → rec.owner ≠ ref'.owner →
        release_resource_lock (some ref') store = store) :=
  C4_lock_released_on_every_path { concurrency := { enabled := true } }
    { toolName := "t", resourceKey := some "r" } { exec := fun _ => .ok .jnull } 0 {}
    [("default:lock:" ++ digest_stable (.jstr "r"), { owner := "owner", expiresAt := 61000 })]
    [] { key := "default:lock:" ++ digest_stable (.jstr "r"), owner := "owner" }
    (by decide) rfl rfl rfl rfl rfl rfl

/-! ## C5 — circuit opens only past the threshold -/

theorem sget_sset_ne {V : Type} (s : List (String × V)) (k k' : String) (v : V)
    (h : ¬ k' = k) : sget (sset s k v) k' = sget s k' := by
  induction s with
  | nil =>
      simp only [sset, sget]
      rw [if_neg (fun hh => h hh.symm)]
  | cons p tl ih =>
      simp only [sset, sget]
      by_cases hp : p.1 = k
      · rw [if_pos hp]
        simp only [sget]
        rw [if_neg (fun hh => h hh.symm), hp, if_neg (fun hh => h hh.symm)]
      · rw [if_neg hp]
        simp only [sget]
        by_cases hq : p.1 = k'
        · rw [if_pos hq, if_pos hq]
        · rw [if_neg hq, if_neg hq, ih]

/-- C5: a `record_circuit_call` touches only its own circuit key; when the
stored `openUntil` changes at a recording, it is set to `now + cooldownMs`
and the post-trim sample count and failure ratio of the stored state meet
`minRequests` and `failureRateThreshold`; and `circuit_open` is emitted
only when those threshold conditions hold and the previous `openUntil` was
absent or already elapsed. -/
theorem C5_circuit_opens_only_past_threshold (circuitCfg : CircuitCfg)
    (tenantKey toolName : String) (destination : Option String) (failed : Bool)
    (now : Int) (st : List (String × CircuitState)) :
    (∀ k', ¬ k' = get_circuit_key tenantKey toolName destination →
      sget (record_circuit_call circuitCfg tenantKey toolName destination failed now st).1 k'
        = sget st k')
    ∧ (∀ state',
        sget (record_circuit_call circuitCfg tenantKey toolName destination failed now st).1
          (get_circuit_key tenantKey toolName destination) = some state' →
        ¬ state'.openUntil = ((sget st (get_circuit_key tenantKey toolName
          destination)).getD { samples := [], openUntil := none }).openUntil →
        state'.openUntil = some (now + circuitCfg.cooldownMs)
        ∧ (state'.samples.length : Int) ≥ circuitCfg.minRequests
        ∧ ratio_ge ((state'.samples.filter (fun s => s.failed)).length : Int)
            (state'.samples.length : Int) circuitCfg.failureRateThreshold = true)
    ∧ (Ev.circuit_open ∈ (record_circuit_call circuitCfg tenantKey toolName destination
          failed now st).2 →
        (((((sget st (get_circuit_key tenantKey toolName destination)).getD
              { samples := [], openUntil := none }).samples
            ++ [CSample.mk now failed]).filter
            (fun s => s.timestamp ≥ now - circuitCfg.windowMs)).length : Int)
          ≥ circuitCfg.minRequests
        ∧ ratio_ge
            ((((((sget st (get_circuit_key tenantKey toolName destination)).getD
                  { samples := [], openUntil := none }).samples
                ++ [CSample.mk now failed]).filter
                (fun s => s.timestamp ≥ now - circuitCfg.windowMs)).filter
                (fun s => s.failed)).length : Int)
            (((((sget st (get_circuit_key tenantKey toolName destination)).getD
                  { samples := [], openUntil := none }).samples
                ++ [CSample.mk now failed]).filter
                (fun s => s.timestamp ≥ now - circuitCfg.windowMs)).length : Int)
            circuitCfg.failureRateThreshold = true
        ∧ (((sget st (get_circuit_key tenantKey toolName destination)).getD
              { samples := [], openUntil := none }).openUntil = none
          ∨ ∃ p, ((sget st (get_circuit_key tenantKey toolName destination)).getD
              { samples := [], openUntil := none }).openUntil = some p ∧ p ≤ now)) := by
  unfold record_circuit_call
  dsimp only
  split
  · refine ⟨fun k' _ => rfl, ?_, ?_⟩
    · intro state' hs hne
      cases hget : sget st (get_circuit_key tenantKey toolName destination) with
      | none => rw [hget] at hs; cases hs
      | some s0 =>
          rw [hget] at hs hne
          cases hs
          exact absurd rfl hne
    · intro hmem; cases hmem
  · split
    · rename_i hcond
      refine ⟨?_, ?_, ?_⟩
      · intro k' hk
        dsimp only
        exact sget_sset_ne st _ k' _ hk
      · intro state' hs hne
        dsimp only at hs
        rw [sget_sset_self] at hs
        cases hs
        exact ⟨rfl, hcond.1, hcond.2⟩
      · intro hmem
        dsimp only at hmem
        split at hmem
        · rename_i hprev
          refine ⟨hcond.1, hcond.2, ?_⟩
          cases hpo : ((sget st (get_circuit_key tenantKey toolName destination)).getD
              { samples := [], openUntil := none }).openUntil with
          | none => exact Or.inl rfl
          | some p =>
              refine Or.inr ⟨p, rfl, ?_⟩
              rw [hpo] at hprev
              exact hprev
        · cases hmem
    · refine ⟨?_, ?_, ?_⟩
      · intro k' hk
        dsimp only
        exact sget_sset_ne st _ k' _ hk
      · intro state' hs hne
        dsimp only at hs
        rw [sget_sset_self] at hs
        cases hs
        exact absurd rfl hne
      · intro hmem; cases hmem

theorem C5_witness :
    sget (record_circuit_call
        { enabled := true, windowMs := 10000, minRequests := 1,
          failureRateThreshold := { num := 0, den := 1 }, cooldownMs := 1000 }
        "default" "t" none true 0 []).1 (get_circuit_key "default" "t" none)
      = some { samples := [{ timestamp := 0, failed := true }], openUntil := some 1000 }
    ∧ Ev.circuit_open ∈ (record_circuit_call
        { enabled := true, windowMs := 10000, minRequests := 1,
          failureRateThreshold := { num := 0, den := 1 }, cooldownMs := 1000 }
        "default" "t" none true 0 []).2
    ∧ sget (record_circuit_call
        { enabled := true, windowMs := 10000, minRequests := 1,
          failureRateThreshold := { num := 0, den := 1 }, cooldownMs := 1000 }
        "default" "t" none true 0 []).1 "x" = sget ([] : List (String × CircuitState)) "x"
    ∧ ((some 1000 : Option Int) = some ((0 : Int) + 1000)
      ∧ ((1 : Int) ≥ 1)
      ∧ ratio_ge 1 1 { num := 0, den := 1 } = true)
    ∧ ((1 : Int) ≥ 1
      ∧ ratio_ge 1 1 { num := 0, den := 1 } = true
      ∧ ((none : Option Int) = none
        ∨ ∃ p, (none : Option Int) = some p ∧ p ≤ (0 : Int))) :=
  ⟨rfl, by decide,
    (C5_circuit_opens_only_past_threshold
      { enabled := true, windowMs := 10000, minRequests := 1,
        failureRateThreshold := { num := 0, den := 1 }, cooldownMs := 1000 }
      "default" "t" none true 0 []).1 "x" (by decide),
    (C5_circuit_opens_only_past_threshold
      { enabled := true, windowMs := 10000, minRequests := 1,
        failureRateThreshold := { num := 0, den := 1 }, cooldownMs := 1000 }
      "default" "t" none true 0 []).2.1
      { samples := [{ timestamp := 0, failed := true }], openUntil := some 1000 }
      rfl (by decide),
    (C5_circuit_opens_only_past_threshold
      { enabled := true, windowMs := 10000, minRequests := 1,
        failureRateThreshold := { num := 0, den := 1 }, cooldownMs := 1000 }
      "default" "t" none true 0 []).2.2 (by decide)⟩

/-! ## C7 — rank ties resolve to the earlier rule index -/

theorem compare_rule_ranks_self_not_pos (a : RuleRank) :
    ¬ compare_rule_ranks a a > 0 := by
  unfold compare_rule_ranks
  split_ifs <;> omega

set_option maxHeartbeats 2000000 in
theorem compare_rule_ranks_pos_trans (a b c : RuleRank)
    (h1 : compare_rule_ranks a b > 0) (h2 : compare_rule_ranks b c > 0) :
    compare_rule_ranks a c > 0 := by
  unfold compare_rule_ranks at h1 h2 ⊢
  split_ifs at h1 h2 ⊢ <;> omega

set_option maxHeartbeats 2000000 in
theorem compare_rule_ranks_nonpos_trans (a b c : RuleRank)
    (h1 : ¬ compare_rule_ranks a b > 0) (h2 : ¬ compare_rule_ranks b c > 0) :
    ¬ compare_rule_ranks a c > 0 := by
  unfold compare_rule_ranks at h1 h2 ⊢
  split_ifs at h1 h2 ⊢ <;> omega

theorem get_tool_rule_match_rank_index (rule : PolicyRule) (ctx : CallCtx) (i : Nat)
    (r : RuleRank) (h : get_tool_rule_match_rank rule ctx i = some r) : r.index = i := by
  unfold get_tool_rule_match_rank at h
  repeat' first
    | split at h
    | dsimp only at h
  all_goals cases h
  all_goals rfl

theorem find_ranked_fold_inv (ctx : CallCtx) :
    ∀ (l : List (Nat × PolicyRule)) (acc : Option (RuleRank × PolicyRule))
      (R : RuleRank) (rule : PolicyRule),
    l.foldl
      (fun best (entry : Nat × PolicyRule) =>
        match get_tool_rule_match_rank entry.2 ctx entry.1 with
        | none => best
        | some rank =>
            match best with
            | none => some (rank, entry.2)
            | some (bestRank, _) =>
                if compare_rule_ranks rank bestRank > 0 then some (rank, entry.2) else best)
      acc = some (R, rule) →
    (acc = some (R, rule)
      ∨ ∃ x, x ∈ l ∧ get_tool_rule_match_rank x.2 ctx x.1 = some R ∧ x.2 = rule)
    ∧ (∀ x, x ∈ l → ∀ r, get_tool_rule_match_rank x.2 ctx x.1 = some r →
        ¬ compare_rule_ranks r R > 0)
    ∧ (∀ accR accRule, acc = some (accR, accRule) → ¬ compare_rule_ranks accR R > 0) := by
  intro l
  induction l with
  | nil =>
      intro acc R rule h
      simp only [List.foldl_nil] at h
      refine ⟨Or.inl h, ?_, ?_⟩
      · intro x hx; cases hx
      · intro accR accRule hacc
        rw [h] at hacc
        cases hacc
        exact compare_rule_ranks_self_not_pos R
  | cons e tl ih =>
      intro acc R rule h
      simp only [List.foldl_cons] at h
      cases hr : get_tool_rule_match_rank e.2 ctx e.1 with
      | none =>
          simp only [hr] at h
          obtain ⟨h1, h2, h3⟩ := ih acc R rule h
          refine ⟨?_, ?_, h3⟩
          · cases h1 with
            | inl hl => exact Or.inl hl
            | inr hrr =>
                obtain ⟨x, hx, hxx⟩ := hrr
                exact Or.inr ⟨x, List.mem_cons_of_mem e hx, hxx⟩
          · intro x hx r hxr
            cases List.mem_cons.mp hx with
            | inl hxe => rw [hxe, hr] at hxr; cases hxr
            | inr hxt => exact h2 x hxt r hxr
      | some rank =>
          simp only [hr] at h
          cases acc with
          | none =>
              dsimp only at h
              obtain ⟨h1, h2, h3⟩ := ih _ R rule h
              have hrankR : ¬ compare_rule_ranks rank R > 0 := h3 rank e.2 rfl
              refine ⟨?_, ?_, ?_⟩
              · cases h1 with
                | inl hl =>
                    cases hl
                    exact Or.inr ⟨e, List.mem_cons_self e tl, hr, rfl⟩
                | inr hrr =>
                    obtain ⟨x, hx, hxx⟩ := hrr
                    exact Or.inr ⟨x, List.mem_cons_of_mem e hx, hxx⟩
              · intro x hx r hxr
                cases List.mem_cons.mp hx with
                | inl hxe =>
                    rw [hxe, hr] at hxr
                    cases hxr
                    exact hrankR
                | inr hxt => exact h2 x hxt r hxr
              · intro accR accRule hacc; cases hacc
          | some b =>
              cases b with
              | mk bR bRule =>
                  dsimp only at h
                  by_cases hb : compare_rule_ranks rank bR > 0
                  · rw [if_pos hb] at h
                    obtain ⟨h1, h2, h3⟩ := ih _ R rule h
                    have hrankR : ¬ compare_rule_ranks rank R > 0 := h3 rank e.2 rfl
                    refine ⟨?_, ?_, ?_⟩
                    · cases h1 with
                      | inl hl =>
                          cases hl
                          exact Or.inr ⟨e, List.mem_cons_self e tl, hr, rfl⟩
                      | inr hrr =>
                          obtain ⟨x, hx, hxx⟩ := hrr
                          exact Or.inr ⟨x, List.mem_cons_of_mem e hx, hxx⟩
                    · intro x hx r hxr
                      cases List.mem_cons.mp hx with
                      | inl hxe =>
                          rw [hxe, hr] at hxr
                          cases hxr
                          exact hrankR
                      | inr hxt => exact h2 x hxt r hxr
                    · intro accR accRule hacc
                      cases hacc
                      intro hcontra
                      exact hrankR (compare_rule_ranks_pos_trans rank bR R hb hcontra)
                  · rw [if_neg hb] at h
                    obtain ⟨h1, h2, h3⟩ := ih _ R rule h
                    have hbRR : ¬ compare_rule_ranks bR R > 0 := h3 bR bRule rfl
                    refine ⟨?_, ?_, ?_⟩
                    · cases h1 with
                      | inl hl => exact Or.inl hl
                      | inr hrr =>
                          obtain ⟨x, hx, hxx⟩ := hrr
                          exact Or.inr ⟨x, List.mem_cons_of_mem e hx, hxx⟩
                    · intro x hx r hxr
                      cases List.mem_cons.mp hx with
                      | inl hxe =>
                          rw [hxe, hr] at hxr
                          cases hxr
                          exact compare_rule_ranks_nonpos_trans rank bR R hb hbRR
                      | inr hxt => exact h2 x hxt r hxr
                    · intro accR accRule hacc
                      cases hacc
                      exact hbRR

/-- C7: when `_find_matching_tool_rule` selects a rule, the winning rank
ranks that rule at its own original index, and every other matching rule
whose rank ties the winner on tool specificity, destination specificity,
action-prefix specificity and strictness sits at an index no smaller than
the winner's — the earlier-indexed rule wins complete ties. -/
theorem C7_rank_tie_earlier_index_wins (rules : List PolicyRule) (ctx : CallCtx)
    (R : RuleRank) (rule : PolicyRule)
    (h : find_matching_ranked rules ctx = some (R, rule)) :
    find_matching_tool_rule rules ctx = some rule
    ∧ (∃ x, x ∈ rules.enum ∧ get_tool_rule_match_rank x.2 ctx x.1 = some R ∧ x.2 = rule)
    ∧ ∀ j rule_j r_j, (j, rule_j) ∈ rules.enum →
        get_tool_rule_match_rank rule_j ctx j = some r_j →
        r_j.toolSpecificity = R.toolSpecificity →
        r_j.destinationSpecificity = R.destinationSpecificity →
        r_j.actionPrefixSpecificity = R.actionPrefixSpecificity →
        r_j.strictness = R.strictness →
        R.index ≤ j := by
  have hmap : find_matching_tool_rule rules ctx = some rule := by
    unfold find_matching_tool_rule
    rw [h]
    rfl
  have hfold := h
  unfold find_matching_ranked at hfold
  obtain ⟨h1, h2, h3⟩ := find_ranked_fold_inv ctx rules.enum none R rule hfold
  refine ⟨hmap, ?_, ?_⟩
  · cases h1 with
    | inl hl => cases hl
    | inr hrr => exact hrr
  · intro j rule_j r_j hmem hrank ht hd ha hs
    have hnb := h2 (j, rule_j) hmem r_j hrank
    have hidx : r_j.index = j := get_tool_rule_match_rank_index rule_j ctx j r_j hrank
    unfold compare_rule_ranks at hnb
    rw [if_neg (by simp [ht]), if_neg (by simp [hd]), if_neg (by simp [ha]),
      if_neg (by simp [hs])] at hnb
    omega

theorem C7_witness :
    find_matching_tool_rule [{}, {}] ({} : CallCtx) = some {}
    ∧ ({ toolSpecificity := -1
         destinationSpecificity := -1
         actionPrefixSpecificity := -1
         strictness := 0
         index := 0 } : RuleRank).index ≤ 1 :=
  ⟨(C7_rank_tie_earlier_index_wins [{}, {}] {}
      { toolSpecificity := -1
        destinationSpecificity := -1
        actionPrefixSpecificity := -1
        strictness := 0
        index := 0 } {} rfl).1,
    (C7_rank_tie_earlier_index_wins [{}, {}] {}
      { toolSpecificity := -1
        destinationSpecificity := -1
        actionPrefixSpecificity := -1
        strictness := 0
        index := 0 } {} rfl).2.2
      1 {}
      { toolSpecificity := -1
        destinationSpecificity := -1
        actionPrefixSpecificity := -1
        strictness := 0
        index := 1 }
      (List.Mem.tail _ (List.Mem.head _)) rfl rfl rfl rfl rfl⟩

/-! ## C10 — overrides replace the caller's per-call timeout -/

/-- C10: even when the call context supplies its own `timeoutMs`, a tool
override that specifies `timeoutMs` determines the effective timeout
(clamped at 0); with no tool override (or one without a timeout), a
destination override that specifies `timeoutMs` determines it.  The
caller's per-call value survives only when no matching override carries a
timeout. -/
theorem C10_override_timeout_replaces_per_call (timeoutMs : Int) (retry : RetryCfg)
    (loopBreaker : LoopCfg) (circuitBreaker : CircuitCfg)
    (overrideTools overrideDests : List OverrideEntry) (ctx : CallCtx) (t : Int)
    (_hctx : ctx.timeoutMs = some t) :
    (∀ ov v, find_tool_override overrideTools ctx.toolName = some ov →
      ov.timeoutMs = some v →
      (resolve_effective_call_config timeoutMs retry loopBreaker circuitBreaker
        overrideTools overrideDests ctx).timeoutMs = max 0 v)
    ∧ (∀ dov v, find_tool_override overrideTools ctx.toolName = none →
      find_destination_override overrideDests (normalize_destination ctx.destination)
        = some dov →
      dov.timeoutMs = some v →
      (resolve_effective_call_config timeoutMs retry loopBreaker circuitBreaker
        overrideTools overrideDests ctx).timeoutMs = max 0 v)
    ∧ (∀ ov dov v, find_tool_override overrideTools ctx.toolName = some ov →
      ov.timeoutMs = none →
      find_destination_override overrideDests (normalize_destination ctx.destination)
        = some dov →
      dov.timeoutMs = some v →
      (resolve_effective_call_config timeoutMs retry loopBreaker circuitBreaker
        overrideTools overrideDests ctx).timeoutMs = max 0 v) := by
  refine ⟨?_, ?_, ?_⟩
  · intro ov v htool hv
    simp only [resolve_effective_call_config, htool, apply_runtime_override, hv]
  · intro dov v htool hdest hv
    simp only [resolve_effective_call_config, htool, hdest, apply_runtime_override, hv]
  · intro ov dov v htool hovt hdest hv
    simp only [resolve_effective_call_config, htool, hovt, hdest, apply_runtime_override, hv]

theorem C10_witness :
    (resolve_effective_call_config 60000 DEFAULT_RETRY DEFAULT_LOOP_BREAKER
      DEFAULT_CIRCUIT_BREAKER [{ pattern := "t", override := { timeoutMs := some 7 } }] []
      { toolName := "t", timeoutMs := some 5 }).timeoutMs = max 0 7 :=
  (C10_override_timeout_replaces_per_call 60000 DEFAULT_RETRY DEFAULT_LOOP_BREAKER
    DEFAULT_CIRCUIT_BREAKER [{ pattern := "t", override := { timeoutMs := some 7 } }] []
    { toolName := "t", timeoutMs := some 5 } 5 rfl).1
    { timeoutMs := some 7 } 7 (by with_unfolding_all rfl) rfl

/-! ## C3 — loop-breaker threshold ordering -/

/-- C3 counterexample: `_resolve_loop_breaker_config` clamps each threshold
independently and never enforces `warning ≤ quarantine ≤ stop`; a
user-supplied override with `warning 10, quarantine 2, stop 5` resolves to
exactly those (unordered) values. -/
theorem C3_counterexample :
    ¬ ((resolve_loop_breaker_config DEFAULT_LOOP_BREAKER
        { warningThreshold := some 10
          quarantineThreshold := some 2
          stopThreshold := some 5 }).warningThreshold
      ≤ (resolve_loop_breaker_config DEFAULT_LOOP_BREAKER
        { warningThreshold := some 10
          quarantineThreshold := some 2
          stopThreshold := some 5 }).quarantineThreshold) := by decide

/-- C3 (amended): the resolver clamps each threshold at 1 independently and
enforces no ordering of its own (see the counterexample); whenever the
supplied (or defaulted) values already satisfy
`warning ≤ quarantine ≤ stop`, the resolved thresholds do too. -/
theorem C3_thresholds_ordered_if_supplied_ordered (d : LoopCfg) (ov : LoopOv)
    (h1 : ov.warningThreshold.getD d.warningThreshold
      ≤ ov.quarantineThreshold.getD d.quarantineThreshold)
    (h2 : ov.quarantineThreshold.getD d.quarantineThreshold
      ≤ ov.stopThreshold.getD d.stopThreshold) :
    (resolve_loop_breaker_config d ov).warningThreshold
      ≤ (resolve_loop_breaker_config d ov).quarantineThreshold
    ∧ (resolve_loop_breaker_config d ov).quarantineThreshold
      ≤ (resolve_loop_breaker_config d ov).stopThreshold := by
  unfold resolve_loop_breaker_config
  exact ⟨max_le_max (le_refl 1) h1, max_le_max (le_refl 1) h2⟩

theorem C3_witness :
    (({} : LoopOv).warningThreshold.getD DEFAULT_LOOP_BREAKER.warningThreshold
      ≤ ({} : LoopOv).quarantineThreshold.getD DEFAULT_LOOP_BREAKER.quarantineThreshold)
    ∧ ((resolve_loop_breaker_config DEFAULT_LOOP_BREAKER {}).warningThreshold
        ≤ (resolve_loop_breaker_config DEFAULT_LOOP_BREAKER {}).quarantineThreshold
      ∧ (resolve_loop_breaker_config DEFAULT_LOOP_BREAKER {}).quarantineThreshold
        ≤ (resolve_loop_breaker_config DEFAULT_LOOP_BREAKER {}).stopThreshold) :=
  ⟨by decide,
    C3_thresholds_ordered_if_supplied_ordered DEFAULT_LOOP_BREAKER {}
      (by decide) (by decide)⟩

/-! ## C9 — the safety composer merges rather than overwrites -/

/-- C9: when the base config carries a before-call verifier, the composed
`beforeCall` returns the base verifier's normalized decision (with the
exit-condition store untouched) whenever that decision is non-allow, and
returns exactly the safety check's decision when the base verifier
allows. -/
theorem C9_merge_runs_base_verifier_first (base : AgentBaseCfg) (safety : SafetyCfg)
    (bv : CallCtx → VerdictRaw) (hbv : base.beforeCall = some bv) (ctx : CallCtx)
    (store : List (String × ExitState)) :
    (¬ (normalize_verifier_decision (bv ctx)).allow = true →
      (apply_agent_logic_safety base safety).beforeCall ctx store
        = (normalize_verifier_decision (bv ctx), store))
    ∧ ((normalize_verifier_decision (bv ctx)).allow = true →
      (apply_agent_logic_safety base safety).beforeCall ctx store
        = safety_before_call (build_injection_matcher safety)
            ((safety.exitCondition.getD {}).enabled = some true)
            (max 1 (match (safety.exitCondition.getD {}).maxStepsPerRun with
              | some n => if n = 0 then 30 else n
              | none => 30))
            ((safety.exitCondition.getD {}).blockAfterTerminal.getD true)
            (safety.exitCondition.getD {}) ctx store) := by
  unfold apply_agent_logic_safety merge_before_call_verifiers
  dsimp only
  simp only [hbv]
  constructor
  · intro hna
    rw [if_pos hna]
  · intro ha
    rw [if_neg (not_not_intro ha)]

theorem C9_witness :
    ((apply_agent_logic_safety { beforeCall := some (fun _ => .vbool false) } {}).beforeCall
        {} [] = ({ allow := false }, ([] : List (String × ExitState))))
    ∧ ((apply_agent_logic_safety { beforeCall := some (fun _ => .vbool true) } {}).beforeCall
        {} [] = ({ allow := true }, ([] : List (String × ExitState)))) :=
  ⟨(C9_merge_runs_base_verifier_first { beforeCall := some (fun _ => .vbool false) } {}
      (fun _ => .vbool false) rfl {} []).1 (by decide),
    (C9_merge_runs_base_verifier_first { beforeCall := some (fun _ => .vbool true) } {}
      (fun _ => .vbool true) rfl {} []).2 (by decide)⟩

end RTC
